import Mathlib

/-!
Verification of the hermestv break-production pipeline.

Shallow embedding of the core data model and operations:
news provider (feed health, cache dedup, headline selection),
break queue state machine, content filter, degradation ladder,
visual director (EDL generation) and lip-sync smoothing.
Each definition is translated from the corresponding Python source
file; the theorems at the end of the file settle the specification
claims against these definitions.
-/

namespace Hermes

/-! Feed health model, from `core/providers/news.py`.
A `feed_health` row as used by `_fetch_feed` and `fetch_all_feeds`. -/

inductive FeedStatus
  | healthy
  | unhealthy
  | dead
deriving DecidableEq, Repr

structure FeedHealth where
  source_id : String
  last_success : Option String
  last_failure : Option String
  consecutive_failures : Int
  status : FeedStatus
deriving DecidableEq, Repr

structure NewsSource where
  id : String
  label : String
  url : String
  category : String
  weight : Int
  enabled : Bool
deriving DecidableEq, Repr

/-- Success branch of the health update in `_fetch_feed` (news.py lines
117-123): `SET last_success = now, consecutive_failures = 0, status = 'healthy'`. -/
def fetchFeedHealthSuccess (now : String) (fh : FeedHealth) : FeedHealth :=
  { fh with
    last_success := some now
    consecutive_failures := 0
    status := FeedStatus.healthy }

/-- Failure branch of the health update in `_fetch_feed` (news.py lines
130-137): `SET last_failure = now, consecutive_failures = consecutive_failures + 1,
status = CASE WHEN consecutive_failures + 1 >= 5 THEN 'dead' ELSE 'unhealthy' END`. -/
def fetchFeedHealthFailure (now : String) (fh : FeedHealth) : FeedHealth :=
  { fh with
    last_failure := some now
    consecutive_failures := fh.consecutive_failures + 1
    status := if fh.consecutive_failures + 1 ≥ 5 then FeedStatus.dead else FeedStatus.unhealthy }

/-- Ordering used by `fetch_all_feeds`: `ORDER BY ns.weight DESC` over the
joined source/health rows. -/
def sourceWeightOrder (a b : NewsSource × FeedHealth) : Prop :=
  b.1.weight ≤ a.1.weight

instance : DecidableRel sourceWeightOrder := fun a b =>
  inferInstanceAs (Decidable (b.1.weight ≤ a.1.weight))

instance : IsTotal (NewsSource × FeedHealth) sourceWeightOrder :=
  ⟨fun a b => le_total b.1.weight a.1.weight⟩

instance : IsTrans (NewsSource × FeedHealth) sourceWeightOrder :=
  ⟨fun _ _ _ h1 h2 => le_trans h2 h1⟩

/-- Source selection of `fetch_all_feeds` (news.py lines 31-39):
`SELECT ... FROM news_sources ns JOIN feed_health fh ON fh.source_id = ns.id
WHERE ns.enabled = 1 AND fh.status != 'dead' ORDER BY ns.weight DESC`.
The input list models the join (one paired health row per source). -/
def fetchAllFeedsSources (rows : List (NewsSource × FeedHealth)) :
    List (NewsSource × FeedHealth) :=
  List.insertionSort sourceWeightOrder
    (rows.filter fun p => p.1.enabled && !(p.2.status = FeedStatus.dead : Bool))

/-! Break queue model, from `core/services/break_queue.py` and the admission
gate of `core/services/break_builder.py`. -/

inductive BreakStatus
  | preparing
  | ready
  | played
  | failed
deriving DecidableEq, Repr

/-- A JSON scalar value as stored inside `meta_json` objects. -/
inductive JVal
  | s (v : String)
  | n (v : Int)
  | b (v : Bool)
  | arr (vs : List String)
  | null
deriving DecidableEq, Repr

/-- A JSON object (what `json.dumps` of a dict produces), as an association list. -/
abbrev JObj := List (String × JVal)

structure BreakRow where
  id : String
  btype : String
  priority : Int
  host_id : Option String
  status : BreakStatus
  script_text : Option String
  audio_path : Option String
  degradation_level : Int
  duration_ms : Option Int
  meta_json : Option JObj
  created_at : Option String
  ready_at : Option String
  played_at : Option String
deriving DecidableEq, Repr

/-- `create_break` (break_queue.py lines 9-23): INSERT of a new row with
status PREPARING; the remaining columns keep their NULL defaults. -/
def create_break (q : List BreakRow) (break_id : String) (break_type : String)
    (priority : Int) (host_id : Option String) : List BreakRow :=
  q ++ [{ id := break_id
          btype := break_type
          priority := priority
          host_id := host_id
          status := BreakStatus.preparing
          script_text := none
          audio_path := none
          degradation_level := 0
          duration_ms := none
          meta_json := none
          created_at := none
          ready_at := none
          played_at := none }]

/-- `mark_ready` (break_queue.py lines 26-53): UPDATE of status, script_text,
audio_path, degradation_level, ready_at, duration_ms and meta_json on the row
with the given id; `json.dumps(meta) if meta else None` collapses an absent
meta dict to NULL. -/
def mark_ready (q : List BreakRow) (break_id : String) (script_text : String)
    (audio_path : String) (degradation_level : Int) (duration_ms : Option Int)
    (meta : Option JObj) (now : String) : List BreakRow :=
  q.map fun r =>
    if r.id = break_id then
      { r with
        status := BreakStatus.ready
        script_text := some script_text
        audio_path := some audio_path
        degradation_level := degradation_level
        ready_at := some now
        duration_ms := duration_ms
        meta_json := meta }
    else r

/-- `mark_played` (break_queue.py lines 56-64). -/
def mark_played (q : List BreakRow) (break_id : String) (now : String) :
    List BreakRow :=
  q.map fun r =>
    if r.id = break_id then
      { r with status := BreakStatus.played, played_at := some now }
    else r

/-- `mark_failed` (break_queue.py lines 67-74): sets status FAILED and
overwrites `meta_json` with `json.dumps(dict of a single error key)`. -/
def mark_failed (q : List BreakRow) (break_id : String) (reason : String) :
    List BreakRow :=
  q.map fun r =>
    if r.id = break_id then
      { r with
        status := BreakStatus.failed
        meta_json := some [("error", JVal.s reason)] }
    else r

/-- `get_preparing_break` (break_queue.py lines 110-117):
`SELECT * FROM break_queue WHERE status = 'PREPARING' LIMIT 1`. -/
def get_preparing_break (q : List BreakRow) : Option BreakRow :=
  q.find? fun r => r.status = BreakStatus.preparing

/-- Admission portion of `prepare_break` (break_builder.py lines 43-61):
if an entry is PREPARING and the call is not breaking, return without
touching the queue; otherwise pick a host (abort when none is available)
and insert a PREPARING entry with type breaking/scheduled and priority 10/0. -/
def prepare_break_admission (q : List BreakRow) (is_breaking : Bool)
    (host : Option String) (break_id : String) : List BreakRow :=
  if (get_preparing_break q).isSome && !is_breaking then q
  else
    match host with
    | none => q
    | some h =>
        create_break q break_id (if is_breaking then "breaking" else "scheduled")
          (if is_breaking then 10 else 0) (some h)

/-- One observable transition of the break_queue table: an admission attempt
by `prepare_break`, or one of the status updates the pipeline performs. -/
inductive BreakQueueStep : List BreakRow → List BreakRow → Prop
  | admission (q : List BreakRow) (is_breaking : Bool) (host : Option String)
      (break_id : String) :
      BreakQueueStep q (prepare_break_admission q is_breaking host break_id)
  | ready (q : List BreakRow) (break_id script_text audio_path : String)
      (degradation_level : Int) (duration_ms : Option Int) (meta : Option JObj)
      (now : String) :
      BreakQueueStep q
        (mark_ready q break_id script_text audio_path degradation_level
          duration_ms meta now)
  | played (q : List BreakRow) (break_id now : String) :
      BreakQueueStep q (mark_played q break_id now)
  | failed (q : List BreakRow) (break_id reason : String) :
      BreakQueueStep q (mark_failed q break_id reason)

/-- Queue states reachable from the empty table through pipeline operations. -/
inductive BreakQueueReachable : List BreakRow → Prop
  | init : BreakQueueReachable []
  | step {q q' : List BreakRow} :
      BreakQueueReachable q → BreakQueueStep q q' → BreakQueueReachable q'

/-- A non-breaking row currently in PREPARING. -/
def nonBreakingPreparing (r : BreakRow) : Bool :=
  !(r.btype = "breaking" : Bool) && (r.status = BreakStatus.preparing : Bool)

/-- Level-3 sting fallback of `prepare_break` (break_builder.py lines 137-146):
when the LM script is absent and `get_fallback_script` returned level 3 and a
sting exists, the entry is marked READY with empty script_text and
degradation_level 3, the sting is pushed, the event is logged and the
function returns; `mark_played` is not called on this path. The queue effect
is exactly the `mark_ready` update; the Bool records the push result, which
does not feed back into the queue. -/
def stingFallbackFlow (q : List BreakRow) (break_id : String)
    (sting_path : String) (now : String) (pushOk : Bool) :
    List BreakRow × Bool :=
  (mark_ready q break_id "" sting_path 3 none none now, pushOk)

/-! Content filter, from `core/services/content_filter.py`. -/

def BLOCKED_PHRASES : List String :=
  ["buy", "sell", "invest", "investing", "price target", "prediction",
   "click", "subscribe", "go to", "check out",
   "breaking news"]

def BLOCKED_SUBSTRINGS : List String :=
  ["http", "www.", ".com", ".org", ".net"]

def DEFAULT_MIN_WORDS : Int := 15

def DEFAULT_MAX_WORDS : Int := 100

def DEFAULT_MAX_CHARS : Int := 600

def DEFAULT_BREAKING_MIN_WORDS : Int := 10

def DEFAULT_BREAKING_MAX_WORDS : Int := 50

/-- Python `str.strip()`: drop leading and trailing whitespace. -/
def pyStrip (s : List Char) : List Char :=
  ((s.dropWhile Char.isWhitespace).reverse.dropWhile Char.isWhitespace).reverse

/-- Helper for `pySplit`: accumulates the current word (reversed). -/
def pySplitAux : List Char → List Char → List (List Char)
  | [], acc => if acc.isEmpty then [] else [acc.reverse]
  | c :: cs, acc =>
      if c.isWhitespace then
        if acc.isEmpty then pySplitAux cs []
        else acc.reverse :: pySplitAux cs []
      else pySplitAux cs (c :: acc)

/-- Python `str.split()` with no argument: split on runs of whitespace,
dropping empty pieces. -/
def pySplit (s : List Char) : List (List Char) :=
  pySplitAux s []

/-- A regex word character (`\w`): letter, digit or underscore
(the scripts under test are ASCII). -/
def wordCharB (c : Char) : Bool :=
  c.isAlphanum || c = '_'

/-- Whether a regex word boundary `\b` matches between positions `i - 1`
and `i` of `s` (positions outside the string count as non-word). -/
def boundaryAt (s : List Char) (i : Nat) : Bool :=
  (if i = 0 then false else wordCharB (s.getD (i - 1) ' ')) != wordCharB (s.getD i ' ')

/-- Whether the literal `p` occurs in `s` starting at position `i`. -/
def matchAt (s p : List Char) (i : Nat) : Bool :=
  (s.drop i).take p.length = p

/-- Model of `re.search` for the pattern built in `validate`:
a word boundary, the escaped phrase literally, then a word boundary. -/
def boundarySearch (s p : List Char) : Bool :=
  (List.range (s.length + 1)).any fun i =>
    matchAt s p i && boundaryAt s i && boundaryAt s (i + p.length)

/-- Model of Python `sub in lower`: plain substring containment. -/
def substringSearch (s p : List Char) : Bool :=
  (List.range (s.length + 1)).any fun i => matchAt s p i

/-- Structured form of the reason string `validate` returns. Each
constructor carries the data its f-string interpolates. -/
inductive VReason
  | emptyScript
  | tooShort (nwords : Int) (min_w : Int)
  | tooLong (nwords : Int) (max_w : Int)
  | exceedsChars (max_c : Int)
  | blockedWord (phrase : String)
  | blockedPattern (sub : String)
  | ok
deriving DecidableEq, Repr

/-- `validate` (content_filter.py lines 24-74). Checks in source order:
emptiness, word count below minimum, word count above maximum, character
count above maximum, word-boundary blocked phrases ("breaking news" is
dropped from the list for breaking breaks), then blocked substrings. -/
def validate (script : String) (is_breaking : Bool) (min_words : Option Int)
    (max_words : Option Int) (max_chars : Option Int) : Bool × VReason :=
  let chars := script.toList
  if chars.isEmpty || (pyStrip chars).isEmpty then (false, VReason.emptyScript)
  else
    let words := pySplit chars
    let min_w := match min_words with
      | some v => v
      | none => if is_breaking then DEFAULT_BREAKING_MIN_WORDS else DEFAULT_MIN_WORDS
    let max_w := match max_words with
      | some v => v
      | none => if is_breaking then DEFAULT_BREAKING_MAX_WORDS else DEFAULT_MAX_WORDS
    let max_c := match max_chars with
      | some v => v
      | none => DEFAULT_MAX_CHARS
    if (words.length : Int) < min_w then (false, VReason.tooShort words.length min_w)
    else if (words.length : Int) > max_w then (false, VReason.tooLong words.length max_w)
    else if (chars.length : Int) > max_c then (false, VReason.exceedsChars max_c)
    else
      let lower := chars.map Char.toLower
      let phrases :=
        if is_breaking then BLOCKED_PHRASES.filter (fun w => !(w = "breaking news" : Bool))
        else BLOCKED_PHRASES
      match phrases.find? (fun p => boundarySearch lower p.toList) with
      | some p => (false, VReason.blockedWord p)
      | none =>
          match BLOCKED_SUBSTRINGS.find? (fun sub => substringSearch lower sub.toList) with
          | some sub => (false, VReason.blockedPattern sub)
          | none => (true, VReason.ok)

/-! Degradation manager, from `core/services/degradation.py`. -/

/-- One piece of a `fallback_templates.template_text` value: literal text or
one of the placeholders `str.format` substitutes in `get_fallback_script`. -/
inductive TemplatePiece
  | lit (s : String)
  | city1
  | temp1
  | condition1
  | city2
  | temp2
  | condition2
deriving DecidableEq, Repr

structure FallbackTemplate where
  id : String
  template_text : List TemplatePiece
  use_count : Int
  last_used_at : Int
deriving DecidableEq, Repr

/-- One weather dict as consumed by `get_fallback_script` (`city_label`,
`temp` already rendered to text, `condition`). -/
structure WeatherCity where
  city_label : String
  temp : String
  condition : String
deriving DecidableEq, Repr

/-- `template["template_text"].format(city1=..., temp1=..., condition1=...,
city2=..., temp2=..., condition2=...)` (degradation.py lines 32-39). -/
def formatTemplate (t : List TemplatePiece) (w1 w2 : WeatherCity) : String :=
  (t.map fun p =>
    match p with
    | TemplatePiece.lit s => s
    | TemplatePiece.city1 => w1.city_label
    | TemplatePiece.temp1 => w1.temp
    | TemplatePiece.condition1 => w1.condition
    | TemplatePiece.city2 => w2.city_label
    | TemplatePiece.temp2 => w2.temp
    | TemplatePiece.condition2 => w2.condition).foldl (· ++ ·) ""

/-- Row order of `SELECT * FROM fallback_templates ORDER BY use_count ASC,
RANDOM()`: ascending use_count, ties decided by a random key; the key is
modelled as an arbitrary function of the row id. -/
def templateOrder (rand : String → Int) (a b : FallbackTemplate) : Prop :=
  a.use_count < b.use_count ∨ (a.use_count = b.use_count ∧ rand a.id ≤ rand b.id)

instance (rand : String → Int) : DecidableRel (templateOrder rand) := fun a b =>
  inferInstanceAs (Decidable (_ ∨ _))

instance (rand : String → Int) : IsTotal FallbackTemplate (templateOrder rand) := by
  constructor
  intro a b
  unfold templateOrder
  rcases lt_trichotomy a.use_count b.use_count with h | h | h
  · exact Or.inl (Or.inl h)
  · rcases le_total (rand a.id) (rand b.id) with h2 | h2
    · exact Or.inl (Or.inr ⟨h, h2⟩)
    · exact Or.inr (Or.inr ⟨h.symm, h2⟩)
  · exact Or.inr (Or.inl h)

instance (rand : String → Int) : IsTrans FallbackTemplate (templateOrder rand) := by
  constructor
  intro a b c hab hbc
  unfold templateOrder at *
  rcases hab with h1 | ⟨e1, r1⟩
  · rcases hbc with h2 | ⟨e2, _⟩
    · exact Or.inl (h1.trans h2)
    · exact Or.inl (e2 ▸ h1)
  · rcases hbc with h2 | ⟨e2, r2⟩
    · exact Or.inl (e1 ▸ h2)
    · exact Or.inr ⟨e1.trans e2, r1.trans r2⟩

/-- `SELECT * FROM fallback_templates ORDER BY use_count ASC, RANDOM()
LIMIT 1` (degradation.py lines 23-26). -/
def selectFallbackTemplate (rand : String → Int) (ts : List FallbackTemplate) :
    Option FallbackTemplate :=
  (List.insertionSort (templateOrder rand) ts).head?

/-- Modelled from the spec, for comparison with `selectFallbackTemplate`:
"fill a stored fallback template ... from the least-recently-used template"
selects the row whose `last_used_at` is oldest. -/
def leastRecentlyUsedTemplate (ts : List FallbackTemplate) :
    Option FallbackTemplate :=
  (List.insertionSort (fun a b => a.last_used_at ≤ b.last_used_at) ts).head?

/-- `get_fallback_script` (degradation.py lines 9-56). Level 2 fires when at
least two weather cities are present and a template row exists: the first
`ORDER BY use_count ASC, RANDOM()` row is filled with the first two cities,
its use_count is incremented (`last_used_at = datetime('now')`), and the pair
(script, 2) is returned together with the updated table. Otherwise level 3
when the station_id sting file exists, else level 4. -/
def get_fallback_script (rand : String → Int) (now : Int)
    (templates : List FallbackTemplate) (weather_data : List WeatherCity)
    (stingExists : Bool) : (Option String × Int) × List FallbackTemplate :=
  match weather_data with
  | w1 :: w2 :: _ =>
      match selectFallbackTemplate rand templates with
      | some t =>
          let script := formatTemplate t.template_text w1 w2
          let templates' := templates.map fun u =>
            if u.id = t.id then
              { u with use_count := u.use_count + 1, last_used_at := now }
            else u
          ((some script, 2), templates')
      | none =>
          if stingExists then ((none, 3), templates) else ((none, 4), templates)
  | _ =>
      if stingExists then ((none, 3), templates) else ((none, 4), templates)

/-! News sanitization and cache dedup, from `core/providers/news.py`. -/

/-- Attempt to match the body of the tag regex right after a `<`:
one or more characters that are not `>`, then `>`. On success returns the
remainder of the input after the closing `>`. The first character left by
`takeWhile` is by construction `>` itself, so matching any head suffices. -/
def tagMatchEnd (cs : List Char) : Option (List Char) :=
  let body := cs.takeWhile fun c => !(c = '>' : Bool)
  if body.isEmpty then none
  else
    match cs.drop body.length with
    | _ :: r => some r
    | [] => none

/-- Model of `_TAG_RE.sub("", text)` with `_TAG_RE = <[^>]+>`: scan left to
right, removing each non-overlapping match. The scan consumes at least one
character per step, so the input length is enough fuel; the fuel argument
only makes the recursion structural. -/
def stripTagsFuel : Nat → List Char → List Char
  | 0, l => l
  | _ + 1, [] => []
  | fuel + 1, c :: cs =>
      if c = '<' then
        match tagMatchEnd cs with
        | some r => stripTagsFuel fuel r
        | none => c :: stripTagsFuel fuel cs
      else c :: stripTagsFuel fuel cs

def stripTags (l : List Char) : List Char :=
  stripTagsFuel l.length l

/-- Model of `_CTRL_RE.sub("", text)` with `_CTRL_RE = [\x00-\x1f\x7f]`. -/
def stripCtrl (l : List Char) : List Char :=
  l.filter fun c => !(c.toNat ≤ 0x1f || c.toNat = 0x7f)

/-- `_sanitize` (news.py lines 19-22): strip HTML tags and control
characters, then `text.strip()[:max_len]`. -/
def sanitize (text : String) (max_len : Nat) : String :=
  String.mk ((pyStrip (stripCtrl (stripTags text.toList))).take max_len)

/-- `_title_hash` (news.py lines 25-26):
`hashlib.sha256(title.lower().strip().encode()).hexdigest()[:16]`, with the
sha256 hex digest abstracted as a function parameter. -/
def title_hash (sha256hex : String → String) (title : String) : String :=
  (sha256hex (String.mk (pyStrip (title.toList.map Char.toLower)))).take 16

/-- A `cache_news` row with the columns the `_fetch_feed` INSERT sets. -/
structure CacheNewsRow where
  id : String
  source_id : String
  title : String
  description : String
  url : String
  published_at : String
  fetched_at : String
  title_hash : String
  category : String
deriving DecidableEq, Repr

/-- One feed entry as consumed by `_fetch_feed` (`entry.get("title")`,
summary/description already coalesced, link, parsed publication time
already rendered to its ISO string). -/
structure FeedEntry where
  title : String
  summary : String
  link : String
  published : Option String
deriving DecidableEq, Repr

/-- `INSERT OR IGNORE INTO cache_news`: no-op when a row with the same id
(the primary key) already exists. -/
def insertOrIgnore (cache : List CacheNewsRow) (row : CacheNewsRow) :
    List CacheNewsRow :=
  if cache.any (fun r => r.id = row.id) then cache else cache ++ [row]

/-- Per-entry step of the `_fetch_feed` loop (news.py lines 63-112): sanitize
the title, skip empty titles, compute the id, skip when the dedup SELECT
finds the id, otherwise INSERT OR IGNORE the new row. -/
def fetchFeedStep (sha256hex : String → String) (src : NewsSource) (now : String)
    (cache : List CacheNewsRow) (e : FeedEntry) : List CacheNewsRow :=
  let title := sanitize e.title 200
  if title.isEmpty then cache
  else
    let th := title_hash sha256hex title
    let news_id := src.id ++ "_" ++ th
    if cache.any (fun r => r.id = news_id) then cache
    else
      insertOrIgnore cache
        { id := news_id
          source_id := src.id
          title := title
          description := sanitize e.summary 300
          url := e.link
          published_at := e.published.getD now
          fetched_at := now
          title_hash := th
          category := src.category }

/-- The cache effect of one `_fetch_feed` poll (news.py lines 49-114):
process the first 20 feed entries in order. -/
def fetchFeedCache (sha256hex : String → String) (src : NewsSource) (now : String)
    (entries : List FeedEntry) (cache : List CacheNewsRow) : List CacheNewsRow :=
  (entries.take 20).foldl (fetchFeedStep sha256hex src now) cache

/-- The id under which `_fetch_feed` caches a feed entry. -/
def feedEntryId (sha256hex : String → String) (src : NewsSource) (e : FeedEntry) :
    String :=
  src.id ++ "_" ++ title_hash sha256hex (sanitize e.title 200)

/-! Headline selection, from `get_top_headlines` (news.py lines 164-219). -/

/-- A scored `cache_news` row as read by `get_top_headlines`. `fetched_at`
is modelled as an integer timestamp; the window test
`fetched_at > datetime('now', '-W minutes')` becomes a comparison against
the cutoff instant `now - W`. -/
structure ScoredHeadline where
  id : String
  source_id : String
  category : String
  title : String
  description : String
  published_at : String
  scored : Bool
  score : Int
  fetched_at : Int
deriving DecidableEq, Repr

/-- The WHERE clause shared by both queries:
`scored = 1 AND score >= 4 AND fetched_at > datetime('now', ?)`. -/
def headlineEligible (cutoff : Int) (r : ScoredHeadline) : Bool :=
  r.scored && decide (4 ≤ r.score) && decide (cutoff < r.fetched_at)

/-- `ORDER BY score DESC, fetched_at DESC`. -/
def headlineOrder (a b : ScoredHeadline) : Prop :=
  b.score < a.score ∨ (a.score = b.score ∧ b.fetched_at ≤ a.fetched_at)

instance : DecidableRel headlineOrder := fun _ _ =>
  inferInstanceAs (Decidable (_ ∨ _))

instance : IsTotal ScoredHeadline headlineOrder := by
  constructor
  intro a b
  unfold headlineOrder
  rcases lt_trichotomy a.score b.score with h | h | h
  · exact Or.inr (Or.inl h)
  · rcases le_total a.fetched_at b.fetched_at with h2 | h2
    · exact Or.inr (Or.inr ⟨h.symm, h2⟩)
    · exact Or.inl (Or.inr ⟨h, h2⟩)
  · exact Or.inl (Or.inl h)

instance : IsTrans ScoredHeadline headlineOrder := by
  constructor
  intro a b c hab hbc
  unfold headlineOrder at *
  rcases hab with h1 | ⟨e1, r1⟩
  · rcases hbc with h2 | ⟨e2, _⟩
    · exact Or.inl (h2.trans h1)
    · exact Or.inl (e2 ▸ h1)
  · rcases hbc with h2 | ⟨e2, r2⟩
    · exact Or.inl (e1 ▸ h2)
    · exact Or.inr ⟨e1.trans e2, r2.trans r1⟩

/-- A query `SELECT ... WHERE <eligible> ORDER BY score DESC, fetched_at DESC
LIMIT limit`, over the table in insertion order. -/
def topHeadlinesQuery (db : List ScoredHeadline) (cutoff : Int) (limit : Nat)
    (pred : ScoredHeadline → Bool) : List ScoredHeadline :=
  (List.insertionSort headlineOrder
    (db.filter fun r => headlineEligible cutoff r && pred r)).take limit

/-- The backfill loop of `get_top_headlines` (news.py lines 201-206): walk
the unexcluded result, appending rows whose id was not seen while fewer than
`limit` rows are collected. -/
def backfillLoop (limit : Nat) :
    List ScoredHeadline → List String → List ScoredHeadline → List ScoredHeadline
  | [], _, rows => rows
  | r :: rest, seen, rows =>
      if !(seen.contains r.id) && decide (rows.length < limit) then
        backfillLoop limit rest (r.id :: seen) (rows ++ [r])
      else
        backfillLoop limit rest seen rows

/-- `get_top_headlines` (news.py lines 164-219). With a non-empty exclusion
list: primary query excluding those ids, then, if it returned fewer than
`limit` rows, a second query without the exclusion whose non-duplicate rows
are appended. With no exclusion list (`if exclude_ids:` falsy): the plain
query. -/
def get_top_headlines (db : List ScoredHeadline) (cutoff : Int) (limit : Nat)
    (exclude_ids : List String) : List ScoredHeadline :=
  if exclude_ids.isEmpty then
    topHeadlinesQuery db cutoff limit (fun _ => true)
  else
    let rows := topHeadlinesQuery db cutoff limit
      (fun r => !(exclude_ids.contains r.id))
    if rows.length < limit then
      let all_rows := topHeadlinesQuery db cutoff limit (fun _ => true)
      backfillLoop limit all_rows (rows.map (·.id)) rows
    else rows

/-- A concrete three-row scored_headlines table used to exercise
`get_top_headlines` on the backfill path. -/
def c1db : List ScoredHeadline :=
  [⟨"h1", "s", "c", "t1", "d", "p", true, 9, 10⟩,
   ⟨"h2", "s", "c", "t2", "d", "p", true, 7, 5⟩,
   ⟨"h3", "s", "c", "t3", "d", "p", true, 1, 5⟩]

/-! Visual director, from `visual/director.py`, `visual/models.py` and the
constants of `visual/config.py`. -/

def REACTION_MIN_MS : Int := 1500

def REACTION_MAX_MS : Int := 3000

def WIDE_SHOT_MIN_MS : Int := 2000

def WIDE_SHOT_MAX_MS : Int := 4000

def WIDE_SHOT_INTERVAL : Nat := 4

def RAPID_EXCHANGE_MS : Int := 2000

/-- `int(WIDE_SHOT_DURATION_S * 1000)` with `WIDE_SHOT_DURATION_S = 2.0`. -/
def WIDE_SHOT_DURATION_MS : Int := 2000

structure DialogLine where
  character : String
  text : String
  audio_path : Option String
  duration_ms : Int
  emotion : String
  camera_hint : Option String
deriving DecidableEq, Repr

structure VScene where
  scene_id : String
  background : String
  lines : List DialogLine
deriving DecidableEq, Repr

structure VScript where
  title : String
  characters : List String
  scenes : List VScene
deriving DecidableEq, Repr

structure EDLSegment where
  segment_id : Nat
  shot_type : String
  background_key : String
  characters : List String
  speaker : Option String
  audio_path : Option String
  duration_ms : Int
  dialog_text : String
  transition : String
  character_states : List (String × String)
  listener : Option String
deriving DecidableEq, Repr

structure EDL where
  segments : List EDLSegment
deriving DecidableEq, Repr

/-- `EDL.total_duration_ms` (models.py lines 75-77). -/
def EDL.total_duration_ms (e : EDL) : Int :=
  (e.segments.map (·.duration_ms)).sum

/-- A deterministic stream of random draws: `g` yields the raw draw for each
successive call into the `random` module, `idx` counts the calls made. -/
structure Rng where
  g : Nat → Nat
  idx : Nat

def Rng.next (r : Rng) : Nat × Rng :=
  (r.g r.idx, { r with idx := r.idx + 1 })

/-- `random.randint(lo, hi)`: an inclusive-range draw derived from one raw
draw (for `lo ≤ hi` the result lies in `[lo, hi]`). -/
def randint (lo hi : Int) (v : Nat) : Int :=
  lo + (v : Int) % (hi - lo + 1)

/-- `_pick_transition` (director.py lines 42-50): `random.random()` compared
against the cumulative transition weights 0.85 and 0.95, modelled on a raw
draw reduced mod 100. -/
def pickTransition (v : Nat) : String :=
  if v % 100 < 85 then "cut"
  else if v % 100 < 95 then "dissolve"
  else "fade_black"

/-- `_closeup_shot_type` (director.py lines 34-39). -/
def closeupShotType (character : String) (characters : List String) : String :=
  if characters.length < 2 then "closeup_left"
  else
    match characters.indexOf? character with
    | some idx => if idx = 0 then "closeup_left" else "closeup_right"
    | none => "closeup_left"

/-- `_is_rapid_exchange` (director.py lines 53-62). -/
def isRapidExchange (current : DialogLine) (prev : Option DialogLine) : Bool :=
  match prev with
  | none => false
  | some p =>
      if current.character = p.character then false
      else decide (p.duration_ms ≤ RAPID_EXCHANGE_MS)

/-- `_should_insert_reaction` (director.py lines 65-71): no draw is made for
single-character scenes or lines shorter than 3000 ms; otherwise one
`random.random()` draw against `REACTION_PROBABILITY = 0.20`. -/
def shouldInsertReaction (line : DialogLine) (characters : List String)
    (r : Rng) : Bool × Rng :=
  if characters.length < 2 then (false, r)
  else if line.duration_ms < 3000 then (false, r)
  else
    let (v, r') := r.next
    (v % 100 < 20, r')

/-- `_pick_listener` (director.py lines 74-77): `random.choice` over the
non-speakers, one draw when that list is non-empty. -/
def pickListener (speaker : String) (characters : List String) (r : Rng) :
    Option String × Rng :=
  let others := characters.filter fun c => !(c = speaker : Bool)
  match others with
  | [] => (none, r)
  | o :: os =>
      let (v, r') := r.next
      (some ((o :: os).getD (v % (o :: os).length) o), r')

/-- `_reaction_emotion` (director.py lines 80-90): table lookup then
`random.choice` over the options (always non-empty). -/
def reactionEmotion (speaker_emotion : String) (r : Rng) : String × Rng :=
  let options :=
    if speaker_emotion = "excited" then ["surprised", "neutral", "excited"]
    else if speaker_emotion = "concerned" then ["concerned", "neutral"]
    else if speaker_emotion = "angry" then ["concerned", "surprised", "neutral"]
    else if speaker_emotion = "surprised" then ["surprised", "neutral"]
    else if speaker_emotion = "sad" then ["concerned", "sad", "neutral"]
    else ["neutral"]
  let (v, r') := r.next
  (options.getD (v % options.length) "neutral", r')

/-- `_bg_key` (director.py lines 93-97). -/
def bgKey (base : String) (shot_type : String) : String :=
  if shot_type = "twoshot" then base ++ "_twoshot"
  else base ++ "_" ++ shot_type

/-- `_chars_for_shot` (director.py lines 100-105). -/
def charsForShot (shot_type : String) (speaker : String)
    (characters : List String) : List String :=
  if shot_type = "wide" || shot_type = "twoshot" then characters
  else [speaker]

/-- Mutable state of the `generate_edl` loops: accumulated segments, the
`seg_id` counter and the random stream position. -/
structure DirState where
  segments : List EDLSegment
  seg_id : Nat
  rng : Rng

/-- Per-scene loop state: `lines_since_wide` and `prev_line`. -/
structure LineCtx where
  st : DirState
  lines_since_wide : Nat
  prev_line : Option DialogLine

/-- Result of the shot-selection branch for one line: the chosen shot type,
the inserted brief wide (if any) and the updated counters. -/
structure ShotSel where
  shot_type : String
  wideSegs : List EDLSegment
  seg_id : Nat
  lines_since_wide : Nat
  rng : Rng

/-- Shot selection for one dialog line (director.py lines 152-184): an
explicit `camera_hint` wins, a rapid exchange forces a twoshot, a line after
`WIDE_SHOT_INTERVAL` lines without a wide first emits a brief wide
(`random.randint(WIDE_SHOT_MIN_MS, WIDE_SHOT_MAX_MS)` long, with a random
transition) and resets the counter, otherwise a closeup of the speaker. -/
def selectShot (bg : String) (chars : List String) (line : DialogLine)
    (prev : Option DialogLine) (lsw : Nat) (seg_id : Nat) (r : Rng) : ShotSel :=
  match line.camera_hint with
  | some hint =>
      let shot :=
        if hint = "closeup" then closeupShotType line.character chars
        else if hint = "twoshot" then "twoshot"
        else if hint = "wide" then "wide"
        else closeupShotType line.character chars
      { shot_type := shot, wideSegs := [], seg_id := seg_id,
        lines_since_wide := lsw, rng := r }
  | none =>
      if isRapidExchange line prev then
        { shot_type := "twoshot", wideSegs := [], seg_id := seg_id,
          lines_since_wide := lsw, rng := r }
      else if WIDE_SHOT_INTERVAL ≤ lsw then
        let (v1, r1) := r.next
        let wide_dur := randint WIDE_SHOT_MIN_MS WIDE_SHOT_MAX_MS v1
        let (v2, r2) := r1.next
        let wideSeg : EDLSegment :=
          { segment_id := seg_id
            shot_type := "wide"
            background_key := bgKey bg "wide"
            characters := chars
            speaker := none
            audio_path := none
            duration_ms := wide_dur
            dialog_text := ""
            transition := pickTransition v2
            character_states := chars.map fun c => (c, "neutral")
            listener := none }
        { shot_type := closeupShotType line.character chars
          wideSegs := [wideSeg]
          seg_id := seg_id + 1
          lines_since_wide := 0
          rng := r2 }
      else
        { shot_type := closeupShotType line.character chars, wideSegs := [],
          seg_id := seg_id, lines_since_wide := lsw, rng := r }

/-- The optional reaction shot after a line (director.py lines 209-231). -/
def reactionSegs (bg : String) (chars : List String) (line : DialogLine)
    (seg_id : Nat) (r : Rng) : List EDLSegment × Nat × Rng :=
  let (doReact, r1) := shouldInsertReaction line chars r
  if doReact then
    match pickListener line.character chars r1 with
    | (some listener, r2) =>
        let (v3, r3) := r2.next
        let react_dur := randint REACTION_MIN_MS REACTION_MAX_MS v3
        let (react_emotion, r4) := reactionEmotion line.emotion r3
        let react_shot := closeupShotType listener chars
        let react_states := chars.map fun c =>
          (c, if c = listener then react_emotion else "neutral")
        ([{ segment_id := seg_id
            shot_type := react_shot
            background_key := bgKey bg react_shot
            characters := [listener]
            speaker := none
            audio_path := none
            duration_ms := react_dur
            dialog_text := ""
            transition := "cut"
            character_states := react_states
            listener := some listener }], seg_id + 1, r4)
    | (none, r2) => ([], seg_id, r2)
  else ([], seg_id, r1)

/-- Body of the per-line loop of `generate_edl` (director.py lines 143-233).
Lines with non-positive duration are skipped (`continue`), leaving the loop
state untouched. -/
def processLine (bg : String) (chars : List String) (ctx : LineCtx)
    (line : DialogLine) : LineCtx :=
  if line.duration_ms ≤ 0 then ctx
  else
    let char_states := chars.map fun c =>
      (c, if c = line.character then line.emotion else "neutral")
    let sel := selectShot bg chars line ctx.prev_line ctx.lines_since_wide
      ctx.st.seg_id ctx.st.rng
    let lsw' := if sel.shot_type = "wide" then 0 else sel.lines_since_wide + 1
    let visible := charsForShot sel.shot_type line.character chars
    let (vt, r3) := sel.rng.next
    let dialogSeg : EDLSegment :=
      { segment_id := sel.seg_id
        shot_type := sel.shot_type
        background_key := bgKey bg sel.shot_type
        characters := visible
        speaker := some line.character
        audio_path := line.audio_path
        duration_ms := line.duration_ms
        dialog_text := line.text
        transition := pickTransition vt
        character_states := char_states
        listener := none }
    let (reacts, seg_id', r') := reactionSegs bg chars line (sel.seg_id + 1) r3
    { st :=
        { segments := ctx.st.segments ++ sel.wideSegs ++ [dialogSeg] ++ reacts
          seg_id := seg_id'
          rng := r' }
      lines_since_wide := lsw'
      prev_line := some line }

/-- Scene opening of `generate_edl` (director.py lines 118-141): append the
scene-start wide shot (`fade_black` transition for the first scene, a random
transition afterwards) and advance `seg_id`. -/
def sceneOpenState (chars : List String) (acc : DirState × Bool)
    (scene : VScene) : DirState :=
  let (st, is_first) := acc
  let (transition, r1) :=
    if is_first then ("fade_black", st.rng)
    else
      let (v, r) := st.rng.next
      (pickTransition v, r)
  let wideSeg : EDLSegment :=
    { segment_id := st.seg_id
      shot_type := "wide"
      background_key := bgKey scene.background "wide"
      characters := chars
      speaker := none
      audio_path := none
      duration_ms := WIDE_SHOT_DURATION_MS
      dialog_text := ""
      transition := transition
      character_states := chars.map fun c => (c, "neutral")
      listener := none }
  { segments := st.segments ++ [wideSeg], seg_id := st.seg_id + 1, rng := r1 }

/-- Body of the per-scene loop of `generate_edl` (director.py lines 118-233):
the opening wide shot, then the lines processed with reset counters. -/
def processScene (chars : List String) (acc : DirState × Bool) (scene : VScene) :
    DirState × Bool :=
  let ctx := scene.lines.foldl (processLine scene.background chars)
    { st := sceneOpenState chars acc scene, lines_since_wide := 0,
      prev_line := none }
  (ctx.st, false)

/-- `generate_edl` (director.py lines 108-237), with the `random` module
modelled by the raw draw stream `g`. -/
def generate_edl (g : Nat → Nat) (script : VScript) : EDL :=
  let st0 : DirState := { segments := [], seg_id := 0, rng := { g := g, idx := 0 } }
  let (stF, _) := script.scenes.foldl (processScene script.characters) (st0, true)
  { segments := stF.segments }

/-! Lip-sync analysis, from `visual/audio_analysis.py` with the constants of
`visual/config.py`. Sample amplitudes are modelled as exact rationals. -/

def RMS_SMOOTHING_FRAMES : Nat := 2

def SAMPLE_RATE : Nat := 16000

/-- Length of the run of `v` at the head of the list, and the remainder. -/
def runSplit (v : Bool) : List Bool → Nat × List Bool
  | [] => (0, [])
  | c :: cs =>
      if c = v then
        let (n, r) := runSplit v cs
        (n + 1, r)
      else (0, c :: cs)

theorem runSplit_length_le (v : Bool) :
    ∀ l : List Bool, (runSplit v l).2.length ≤ l.length := by
  intro l
  induction l with
  | nil => simp [runSplit]
  | cons c cs ih =>
      by_cases h : c = v <;> simp [runSplit, h]
      exact le_trans ih (Nat.le_succ _)

/-- The run-flipping loop of `_smooth` (audio_analysis.py lines 61-73) after
the first run: each maximal run of the original list shorter than `min_run`
is overwritten with the (possibly already flipped) value of its predecessor
position, carried here as `prev`. -/
def smoothRuns (min_run : Nat) (prev : Bool) (l : List Bool) : List Bool :=
  match l with
  | [] => []
  | c :: cs =>
      if (runSplit c cs).1 + 1 < min_run then
        List.replicate ((runSplit c cs).1 + 1) prev ++
          smoothRuns min_run prev (runSplit c cs).2
      else
        List.replicate ((runSplit c cs).1 + 1) c ++
          smoothRuns min_run c (runSplit c cs).2
termination_by l.length
decreasing_by
  all_goals
    exact Nat.lt_succ_of_le (runSplit_length_le c cs)

/-- `_smooth` (audio_analysis.py lines 55-74): inputs shorter than 3 frames
or a `min_run` below 1 are returned unchanged; the run starting at index 0
is never flipped (`i > 0` guard), later runs go through `smoothRuns`. -/
def smooth (frames : List Bool) (min_run : Nat) : List Bool :=
  if frames.length < 3 || min_run < 1 then frames
  else
    match frames with
    | [] => []
    | c :: cs =>
        List.replicate ((runSplit c cs).1 + 1) c ++
          smoothRuns min_run c (runSplit c cs).2

/-- Sum of squares of one frame of samples (the exact comparison surrogate
for its RMS). -/
def frameSumSq (frame : List ℤ) : ℤ :=
  (frame.map fun x => x * x).sum

/-- `numpy`'s `.max()`: left fold of the binary maximum. -/
def imax (a b : ℤ) : ℤ :=
  if a ≤ b then b else a

/-- The mask pipeline of `analyze_lipsync` (audio_analysis.py lines 9-52)
after FFmpeg decoding, on exact int16 sample values: chunk the samples into
non-overlapping windows of `sample_rate / fps` samples, compute each
window's RMS, normalize by the maximum, threshold at `RMS_THRESHOLD = 0.02`
and smooth. All windows have the same length, so the threshold comparison
`rms_i / rms_max > 0.02` holds iff `sumsq_i / n > sumsq_max / (2500 * n)`
iff `2500 * sumsq_i > sumsq_max`, which is how it is carried out here. -/
def analyze_lipsync_mask (samples : List ℤ) (fps : Nat) : List Bool :=
  let samples_per_frame := SAMPLE_RATE / fps
  if samples_per_frame = 0 then []
  else
    let total_frames := samples.length / samples_per_frame
    if total_frames = 0 then []
    else
      let trimmed := samples.take (total_frames * samples_per_frame)
      let frames := (List.range total_frames).map fun i =>
        (trimmed.drop (i * samples_per_frame)).take samples_per_frame
      let sumsq := frames.map frameSumSq
      let sumsqMax := sumsq.foldl imax 0
      if sumsqMax = 0 then List.replicate total_frames false
      else
        let talking := sumsq.map fun m => decide (sumsqMax < 2500 * m)
        smooth talking RMS_SMOOTHING_FRAMES

/-! Statement-level helpers for the claims below. -/

/-- Total duration of a list of EDL segments. -/
def segmentsDuration (l : List EDLSegment) : Int :=
  (l.map (·.duration_ms)).sum

/-- The segments `generate_edl` inserts on its own (scene-opening wides,
interval wides and reaction shots): exactly those carrying no speaker. -/
def insertedSegments (l : List EDLSegment) : List EDLSegment :=
  l.filter fun s => s.speaker.isNone

/-- The segments that voice a dialog line: those carrying a speaker. -/
def spokenSegments (l : List EDLSegment) : List EDLSegment :=
  l.filter fun s => s.speaker.isSome

def spokenDuration (l : List EDLSegment) : Int :=
  segmentsDuration (spokenSegments l)

def insertedDuration (l : List EDLSegment) : Int :=
  segmentsDuration (insertedSegments l)

/-- Sum of all dialog-line durations of a script. -/
def scriptLineDuration (s : VScript) : Int :=
  (s.scenes.map fun sc => (sc.lines.map (·.duration_ms)).sum).sum

/-- The mask contains no run of identical values of length 1, except
possibly the run at the leading edge: every position `i ≥ 1` whose value
differs from its predecessor is followed by a position with an equal value. -/
def noIsolatedAfterHead (mask : List Bool) : Prop :=
  ∀ i : Nat, 0 < i → i + 1 ≤ mask.length →
    mask.getD i false ≠ mask.getD (i - 1) false →
    i + 1 < mask.length ∧ mask.getD (i + 1) false = mask.getD i false

/-- Proof-side characterization: `NoIso p l` says that, reading `l` with a
virtual predecessor frame of value `p`, every element either merges with its
predecessor or opens a run of length at least 2. -/
inductive NoIso : Bool → List Bool → Prop
  | nil (p : Bool) : NoIso p []
  | merge (p : Bool) (l : List Bool) : NoIso p l → NoIso p (p :: l)
  | fresh (p b : Bool) (l : List Bool) : b ≠ p → NoIso b (b :: l) →
      NoIso p (b :: b :: l)

/-! Claim C2 — feed-health transitions and dead-source exclusion. -/

/-- Claim C2: for every news source, each fetch attempt updates its
FeedHealth record so that on success the status becomes healthy and the
consecutive-failure counter becomes 0; on failure the counter is incremented
by 1 and the status becomes dead iff the incremented count reaches 5,
unhealthy otherwise; and `fetch_all_feeds` never polls a source whose status
is dead. -/
theorem feed_health_transitions (now : String) (fh : FeedHealth)
    (rows : List (NewsSource × FeedHealth)) :
    ((fetchFeedHealthSuccess now fh).status = FeedStatus.healthy ∧
      (fetchFeedHealthSuccess now fh).consecutive_failures = 0) ∧
    ((fetchFeedHealthFailure now fh).consecutive_failures =
        fh.consecutive_failures + 1 ∧
      ((fetchFeedHealthFailure now fh).status = FeedStatus.dead ↔
        5 ≤ fh.consecutive_failures + 1) ∧
      (fh.consecutive_failures + 1 < 5 →
        (fetchFeedHealthFailure now fh).status = FeedStatus.unhealthy)) ∧
    (∀ p ∈ fetchAllFeedsSources rows, p.2.status ≠ FeedStatus.dead) := by
  refine ⟨⟨rfl, rfl⟩, ⟨rfl, ?_, ?_⟩, ?_⟩
  · unfold fetchFeedHealthFailure
    by_cases h : (5 : Int) ≤ fh.consecutive_failures + 1 <;>
      simp [ge_iff_le, h]
  · intro h
    unfold fetchFeedHealthFailure
    rw [if_neg (by omega)]
  · intro p hp
    unfold fetchAllFeedsSources at hp
    have hmem : p ∈ rows.filter fun q =>
        q.1.enabled && !(q.2.status = FeedStatus.dead : Bool) :=
      ((List.perm_insertionSort sourceWeightOrder _).mem_iff).mp hp
    have := (List.mem_filter.mp hmem).2
    simpa using (Bool.and_elim_right this)

/-- Witness for C2 at concrete inputs: the fifth consecutive failure kills
the feed, and a dead feed is filtered out of the polled sources. -/
theorem feed_health_transitions_witness :
    (fetchFeedHealthFailure "t"
      { source_id := "s", last_success := none, last_failure := none,
        consecutive_failures := 4, status := FeedStatus.unhealthy }).status =
      FeedStatus.dead ∧
    (∀ p ∈ fetchAllFeedsSources
        [({ id := "s", label := "S", url := "u", category := "g", weight := 1,
            enabled := true },
          { source_id := "s", last_success := none, last_failure := none,
            consecutive_failures := 5, status := FeedStatus.dead })],
      p.2.status ≠ FeedStatus.dead) := by
  constructor
  · exact ((feed_health_transitions "t"
      { source_id := "s", last_success := none, last_failure := none,
        consecutive_failures := 4, status := FeedStatus.unhealthy }
      []).2.1.2.1).mpr (by norm_num)
  · exact (feed_health_transitions "t"
      { source_id := "s", last_success := none, last_failure := none,
        consecutive_failures := 4, status := FeedStatus.unhealthy } _).2.2

/-! Claim C10 — frame effect of `mark_failed`. -/

/-- Claim C10: `mark_failed` sets the matching row's status to FAILED and
replaces its whole `meta_json` with the single-key error object, erasing
previous metadata, while every other column of the row — and every
non-matching row — is left unchanged. -/
theorem mark_failed_frame (q : List BreakRow) (break_id reason : String)
    (i : Nat) (hi : i < q.length) :
    (mark_failed q break_id reason).length = q.length ∧
    ∀ hi' : i < (mark_failed q break_id reason).length,
      (((q.get ⟨i, hi⟩).id = break_id →
        ((mark_failed q break_id reason).get ⟨i, hi'⟩).status = BreakStatus.failed ∧
        ((mark_failed q break_id reason).get ⟨i, hi'⟩).meta_json =
          some [("error", JVal.s reason)] ∧
        ((mark_failed q break_id reason).get ⟨i, hi'⟩).id = (q.get ⟨i, hi⟩).id ∧
        ((mark_failed q break_id reason).get ⟨i, hi'⟩).btype = (q.get ⟨i, hi⟩).btype ∧
        ((mark_failed q break_id reason).get ⟨i, hi'⟩).priority = (q.get ⟨i, hi⟩).priority ∧
        ((mark_failed q break_id reason).get ⟨i, hi'⟩).host_id = (q.get ⟨i, hi⟩).host_id ∧
        ((mark_failed q break_id reason).get ⟨i, hi'⟩).script_text = (q.get ⟨i, hi⟩).script_text ∧
        ((mark_failed q break_id reason).get ⟨i, hi'⟩).audio_path = (q.get ⟨i, hi⟩).audio_path ∧
        ((mark_failed q break_id reason).get ⟨i, hi'⟩).degradation_level = (q.get ⟨i, hi⟩).degradation_level ∧
        ((mark_failed q break_id reason).get ⟨i, hi'⟩).duration_ms = (q.get ⟨i, hi⟩).duration_ms ∧
        ((mark_failed q break_id reason).get ⟨i, hi'⟩).created_at = (q.get ⟨i, hi⟩).created_at ∧
        ((mark_failed q break_id reason).get ⟨i, hi'⟩).ready_at = (q.get ⟨i, hi⟩).ready_at ∧
        ((mark_failed q break_id reason).get ⟨i, hi'⟩).played_at = (q.get ⟨i, hi⟩).played_at) ∧
      ((q.get ⟨i, hi⟩).id ≠ break_id →
        (mark_failed q break_id reason).get ⟨i, hi'⟩ = q.get ⟨i, hi⟩)) := by
  constructor
  · simp [mark_failed]
  · intro hi'
    have hget : (mark_failed q break_id reason).get ⟨i, hi'⟩ =
        (fun r => if r.id = break_id then
          { r with status := BreakStatus.failed,
                   meta_json := some [("error", JVal.s reason)] }
          else r) (q.get ⟨i, hi⟩) := by
      simpa [mark_failed] using List.get_map _
    constructor
    · intro hid
      rw [hget]
      simp only [List.get_eq_getElem] at hid
      simp [hid]
    · intro hid
      rw [hget]
      simp only [List.get_eq_getElem] at hid
      simp [hid]

/-- Witness for C10 on a one-row queue. -/
theorem mark_failed_frame_witness :
    ((mark_failed (create_break [] "brk1" "scheduled" 0 (some "host_a"))
        "brk1" "boom").get ⟨0, by decide⟩).status = BreakStatus.failed := by
  have h := mark_failed_frame (create_break [] "brk1" "scheduled" 0 (some "host_a"))
    "brk1" "boom" 0 (by decide)
  exact ((h.2 (by decide)).1 (by decide)).1

/-! Claim C6 — the level-3 sting fallback path. The path marks the entry
READY with empty script and degradation level 3 and pushes the sting, but it
returns without calling `mark_played`, so the entry does not end PLAYED. -/

/-- Counterexample to C6 as stated: on a queue holding the entry being
built, the sting fallback path leaves the entry in READY — it does not end
in status PLAYED even though the push succeeded. -/
theorem sting_fallback_not_played :
    ((stingFallbackFlow (create_break [] "brk1" "scheduled" 0 (some "host_a"))
        "brk1" "stings/station_id.mp3" "t1" true).1.get ⟨0, by decide⟩).status =
      BreakStatus.ready ∧
    ¬(((stingFallbackFlow (create_break [] "brk1" "scheduled" 0 (some "host_a"))
        "brk1" "stings/station_id.mp3" "t1" true).1.get ⟨0, by decide⟩).status =
      BreakStatus.played) := by
  constructor
  · rfl
  · intro h
    exact absurd h (by decide)

/-- Claim C6 as amended: when no script can be produced and a sting exists,
the entry is marked READY with empty script_text, the sting as its audio
path and degradation_level 3, and it remains READY — the sting path never
marks it PLAYED (the push result does not feed back into the queue). -/
theorem sting_fallback_ready (q : List BreakRow) (break_id sting now : String)
    (push : Bool) (i : Nat) (hi : i < q.length) :
    ∀ hi' : i < (stingFallbackFlow q break_id sting now push).1.length,
      (q.get ⟨i, hi⟩).id = break_id →
        ((stingFallbackFlow q break_id sting now push).1.get ⟨i, hi'⟩).status =
            BreakStatus.ready ∧
        ((stingFallbackFlow q break_id sting now push).1.get ⟨i, hi'⟩).script_text =
            some "" ∧
        ((stingFallbackFlow q break_id sting now push).1.get ⟨i, hi'⟩).audio_path =
            some sting ∧
        ((stingFallbackFlow q break_id sting now push).1.get ⟨i, hi'⟩).degradation_level =
            3 ∧
        ¬(((stingFallbackFlow q break_id sting now push).1.get ⟨i, hi'⟩).status =
            BreakStatus.played) := by
  intro hi' hid
  have hget : (stingFallbackFlow q break_id sting now push).1.get ⟨i, hi'⟩ =
      (fun r => if r.id = break_id then
        { r with
          status := BreakStatus.ready
          script_text := some ""
          audio_path := some sting
          degradation_level := 3
          ready_at := some now
          duration_ms := none
          meta_json := none }
        else r) (q.get ⟨i, hi⟩) := by
    simpa [stingFallbackFlow, mark_ready] using List.get_map _
  rw [hget]
  simp only [List.get_eq_getElem] at hid
  simp [hid]

/-- Witness for the amended C6 on a one-row queue. -/
theorem sting_fallback_ready_witness :
    ((stingFallbackFlow (create_break [] "brk2" "scheduled" 0 (some "host_b"))
        "brk2" "stings/station_id.mp3" "t2" false).1.get ⟨0, by decide⟩).degradation_level =
      3 := by
  have h := sting_fallback_ready (create_break [] "brk2" "scheduled" 0 (some "host_b"))
    "brk2" "stings/station_id.mp3" "t2" false 0 (by decide) (by decide) (by decide)
  exact h.2.2.2.1

/-! Claim C5 — the level-2 template fallback. The code orders templates by
`use_count ASC` (least often used), not by recency of use; on a table where
these differ the claim's "least-recently-used" reading fails. -/

/-- Counterexample to C5 as stated: with template a (use_count 3, last used
at time 0) and template b (use_count 1, last used at time 100), the code
selects b — the least-used row — while the least-recently-used row is a. -/
theorem fallback_template_not_lru :
    (selectFallbackTemplate (fun _ => 0)
        [{ id := "a", template_text := [TemplatePiece.lit "x"], use_count := 3,
           last_used_at := 0 },
         { id := "b", template_text := [TemplatePiece.lit "y"], use_count := 1,
           last_used_at := 100 }]).map (·.id) = some "b" ∧
    (leastRecentlyUsedTemplate
        [{ id := "a", template_text := [TemplatePiece.lit "x"], use_count := 3,
           last_used_at := 0 },
         { id := "b", template_text := [TemplatePiece.lit "y"], use_count := 1,
           last_used_at := 100 }]).map (·.id) = some "a" ∧
    ¬(some "b" = (some "a" : Option String)) := by
  refine ⟨by decide, by decide, by decide⟩

/-- Claim C5 as amended: when the LM write fails and at least two weather
cities are present and a template row exists, the fallback script fills the
least-used template (minimal use_count; ties broken by the random key) with
the first two cities' values, that template's use counter is incremented by
1 (and only its row changes), and the returned degradation level is 2. -/
theorem fallback_template_least_used (rand : String → Int) (now : Int)
    (ts : List FallbackTemplate) (w1 w2 : WeatherCity) (rest : List WeatherCity)
    (st : Bool) (t : FallbackTemplate)
    (hsel : selectFallbackTemplate rand ts = some t) :
    (get_fallback_script rand now ts (w1 :: w2 :: rest) st).1 =
      (some (formatTemplate t.template_text w1 w2), 2) ∧
    (∀ u ∈ ts, t.use_count ≤ u.use_count) ∧
    (get_fallback_script rand now ts (w1 :: w2 :: rest) st).2.length = ts.length ∧
    ∀ (i : Nat) (hi : i < ts.length)
      (hi' : i < (get_fallback_script rand now ts (w1 :: w2 :: rest) st).2.length),
      (((get_fallback_script rand now ts (w1 :: w2 :: rest) st).2.get ⟨i, hi'⟩).use_count =
        if (ts.get ⟨i, hi⟩).id = t.id then (ts.get ⟨i, hi⟩).use_count + 1
        else (ts.get ⟨i, hi⟩).use_count) := by
  have hsel' := hsel
  unfold selectFallbackTemplate at hsel'
  have hmin : ∀ u ∈ ts, t.use_count ≤ u.use_count := by
    intro u hu
    have hsorted : List.Sorted (templateOrder rand)
        (List.insertionSort (templateOrder rand) ts) :=
      List.sorted_insertionSort (templateOrder rand) ts
    have humem : u ∈ List.insertionSort (templateOrder rand) ts :=
      ((List.perm_insertionSort (templateOrder rand) ts).mem_iff).mpr hu
    rcases hl : List.insertionSort (templateOrder rand) ts with _ | ⟨hd, tl⟩
    · rw [hl] at hsel'
      exact absurd hsel' (by simp)
    · rw [hl] at hsel'
      simp only [List.head?_cons, Option.some.injEq] at hsel'
      subst hsel'
      rw [hl] at humem hsorted
      rcases List.mem_cons.mp humem with h | h
      · rw [h]
      · have h2 := (List.sorted_cons.mp hsorted).1 u h
        rcases h2 with h1 | ⟨h1, _⟩
        · exact le_of_lt h1
        · exact le_of_eq h1
  refine ⟨by simp [get_fallback_script, hsel], hmin, by simp [get_fallback_script, hsel], ?_⟩
  intro i hi hi'
  have hget : (get_fallback_script rand now ts (w1 :: w2 :: rest) st).2.get ⟨i, hi'⟩ =
      (fun u => if u.id = t.id then
        { u with use_count := u.use_count + 1, last_used_at := now }
        else u) (ts.get ⟨i, hi⟩) := by
    simp only [get_fallback_script, hsel]
    simp [hsel]
  rw [hget]
  by_cases hid : (ts.get ⟨i, hi⟩).id = t.id
  · simp only [List.get_eq_getElem] at hid
    simp [hid]
  · simp only [List.get_eq_getElem] at hid
    simp [hid]

/-- Witness for the amended C5 on a two-template table. -/
theorem fallback_template_least_used_witness :
    (get_fallback_script (fun _ => 0) 7
        [{ id := "a", template_text := [TemplatePiece.lit "x"], use_count := 3,
           last_used_at := 0 },
         { id := "b", template_text := [TemplatePiece.lit "y"], use_count := 1,
           last_used_at := 100 }]
        [{ city_label := "BA", temp := "22", condition := "clear" },
         { city_label := "NY", temp := "5", condition := "snow" }] true).1 =
      (some "y", 2) := by
  have h := fallback_template_least_used (fun _ => 0) 7
    [{ id := "a", template_text := [TemplatePiece.lit "x"], use_count := 3,
       last_used_at := 0 },
     { id := "b", template_text := [TemplatePiece.lit "y"], use_count := 1,
       last_used_at := 100 }]
    { city_label := "BA", temp := "22", condition := "clear" }
    { city_label := "NY", temp := "5", condition := "snow" } [] true
    { id := "b", template_text := [TemplatePiece.lit "y"], use_count := 1,
      last_used_at := 100 } (by decide)
  exact h.1

/-! Claim C4 — content validator. -/

/-- Claim C4: `validate` rejects any script with fewer than min_words words,
more than max_words words, or more than max_chars characters; it rejects
"Please visit example.com today" because of the ".com" substring; and under
bounds admitting its length it accepts "The investigation continues", since
blocked phrases are matched only at word boundaries. -/
theorem validate_spec :
    (∀ (s : String) (b : Bool) (mw xw xc : Int),
      ((pySplit s.toList).length : Int) < mw →
      (validate s b (some mw) (some xw) (some xc)).1 = false) ∧
    (∀ (s : String) (b : Bool) (mw xw xc : Int),
      xw < ((pySplit s.toList).length : Int) →
      (validate s b (some mw) (some xw) (some xc)).1 = false) ∧
    (∀ (s : String) (b : Bool) (mw xw xc : Int),
      xc < (s.toList.length : Int) →
      (validate s b (some mw) (some xw) (some xc)).1 = false) ∧
    validate "Please visit example.com today" false (some 1) (some 100) (some 600) =
      (false, VReason.blockedPattern ".com") ∧
    validate "The investigation continues" false (some 1) (some 100) (some 600) =
      (true, VReason.ok) := by
  refine ⟨?_, ?_, ?_, by decide, by decide⟩
  · intro s b mw xw xc h
    simp only [validate]
    split_ifs <;> first | rfl | omega
  · intro s b mw xw xc h
    simp only [validate]
    split_ifs <;> first | rfl | omega
  · intro s b mw xw xc h
    simp only [validate]
    split_ifs <;> first | rfl | omega

/-- Witness for C4: a two-word script is rejected under a minimum of 15. -/
theorem validate_spec_witness :
    (validate "hello there" false (some 15) (some 100) (some 600)).1 = false :=
  validate_spec.1 "hello there" false 15 100 600 (by decide)

/-! Claim C3 — admission gate of `prepare_break` and the single-PREPARING
property for non-breaking builds. -/

/-- Claim C3: a non-breaking `prepare_break` call finding some PREPARING row
returns without touching the queue; a breaking call bypasses the gate and
inserts a PREPARING entry of type breaking with priority 10; consequently,
over every reachable queue state, at most one non-breaking row is in
PREPARING. -/
theorem admission_single_preparing (q : List BreakRow) (host : Option String)
    (break_id : String) :
    ((get_preparing_break q).isSome →
      prepare_break_admission q false host break_id = q) ∧
    (∀ h : String, ∃ r : BreakRow,
      prepare_break_admission q true (some h) break_id = q ++ [r] ∧
      r.btype = "breaking" ∧ r.priority = 10 ∧
      r.status = BreakStatus.preparing ∧ r.id = break_id) ∧
    (∀ s : List BreakRow, BreakQueueReachable s →
      s.countP nonBreakingPreparing ≤ 1) := by
  refine ⟨?_, ?_, ?_⟩
  · intro hgate
    unfold prepare_break_admission
    rw [if_pos (by simp [hgate])]
  · intro h
    refine ⟨{ id := break_id, btype := "breaking", priority := 10,
              host_id := some h, status := BreakStatus.preparing,
              script_text := none, audio_path := none, degradation_level := 0,
              duration_ms := none, meta_json := none, created_at := none,
              ready_at := none, played_at := none }, ?_, rfl, rfl, rfl, rfl⟩
    unfold prepare_break_admission
    rw [if_neg (by simp)]
    rfl
  · intro s hs
    induction hs with
    | init => simp
    | step hq hstep ih =>
        cases hstep with
        | admission ib h bid =>
            rename_i q₀
            unfold prepare_break_admission
            by_cases hgate : ((get_preparing_break q₀).isSome && !ib) = true
            · rw [if_pos hgate]
              exact ih
            · rw [if_neg hgate]
              cases h with
              | none => exact ih
              | some hh =>
                  cases ib with
                  | true =>
                      unfold create_break
                      rw [List.countP_append]
                      have hrow : ∀ row : BreakRow, row.btype = "breaking" →
                          List.countP nonBreakingPreparing [row] = 0 := by
                        intro row hb
                        simp [List.countP_cons, nonBreakingPreparing, hb]
                      rw [hrow _ (by simp)]
                      omega
                  | false =>
                      have hnone : get_preparing_break q₀ = none := by
                        rcases ho : get_preparing_break q₀ with _ | r
                        · rfl
                        · exact absurd (by simp [ho]) hgate
                      have hzero : q₀.countP nonBreakingPreparing = 0 := by
                        rw [List.countP_eq_zero]
                        intro r hr
                        have hnp := List.find?_eq_none.mp hnone r hr
                        unfold nonBreakingPreparing
                        simp only [Bool.and_eq_true, Bool.not_eq_true',
                          decide_eq_false_iff_not, decide_eq_true_eq, not_and]
                        intro _
                        simpa using hnp
                      unfold create_break
                      rw [List.countP_append, hzero]
                      have hrow : List.countP nonBreakingPreparing
                          [({ id := bid,
                              btype := if false = true then "breaking" else "scheduled",
                              priority := if false = true then 10 else 0,
                              host_id := some hh, status := BreakStatus.preparing,
                              script_text := none, audio_path := none,
                              degradation_level := 0, duration_ms := none,
                              meta_json := none, created_at := none,
                              ready_at := none, played_at := none } : BreakRow)] ≤ 1 := by
                        simpa using List.countP_le_length _
                      omega
        | ready bid stx ap dl dm meta now =>
            unfold mark_ready
            rw [List.countP_map]
            refine le_trans (List.countP_mono_left ?_) ih
            intro r _ hpr
            by_cases hid : r.id = bid
            · exfalso
              revert hpr
              simp [Function.comp, hid, nonBreakingPreparing]
            · simpa [Function.comp, hid] using hpr
        | played bid now =>
            unfold mark_played
            rw [List.countP_map]
            refine le_trans (List.countP_mono_left ?_) ih
            intro r _ hpr
            by_cases hid : r.id = bid
            · exfalso
              revert hpr
              simp [Function.comp, hid, nonBreakingPreparing]
            · simpa [Function.comp, hid] using hpr
        | failed bid reason =>
            unfold mark_failed
            rw [List.countP_map]
            refine le_trans (List.countP_mono_left ?_) ih
            intro r _ hpr
            by_cases hid : r.id = bid
            · exfalso
              revert hpr
              simp [Function.comp, hid, nonBreakingPreparing]
            · simpa [Function.comp, hid] using hpr

/-- Witness for C3: a second non-breaking admission attempt is a no-op while
a row is PREPARING, and the two-step state is reachable with at most one
non-breaking PREPARING row. -/
theorem admission_single_preparing_witness :
    prepare_break_admission (create_break [] "brk1" "scheduled" 0 (some "host_a"))
        false (some "host_b") "brk2" =
      create_break [] "brk1" "scheduled" 0 (some "host_a") ∧
    (create_break [] "brk1" "scheduled" 0 (some "host_a")).countP
        nonBreakingPreparing ≤ 1 := by
  constructor
  · exact (admission_single_preparing
      (create_break [] "brk1" "scheduled" 0 (some "host_a")) (some "host_b")
      "brk2").1 (by decide)
  · refine (admission_single_preparing [] none "x").2.2 _ ?_
    have h0 : BreakQueueReachable [] := BreakQueueReachable.init
    have h1 := BreakQueueReachable.step h0
      (BreakQueueStep.admission [] false (some "host_a") "brk1")
    simpa [prepare_break_admission, get_preparing_break] using h1

/-! Claim C9 — lip-sync smoothing. `_smooth` returns masks shorter than
3 frames unchanged, so a 2-frame mask can keep an isolated trailing value;
for at least 3 frames the smoothing does eliminate every non-leading run of
length 1. -/

theorem runSplit_decomp (v : Bool) : ∀ l : List Bool,
    List.replicate (runSplit v l).1 v ++ (runSplit v l).2 = l := by
  intro l
  induction l with
  | nil => simp [runSplit]
  | cons c cs ih =>
      by_cases h : c = v
      · subst h
        rcases hrs : runSplit c cs with ⟨n, r⟩
        rw [hrs] at ih
        simp only [runSplit, if_pos rfl, hrs]
        simpa [List.replicate_succ] using ih
      · simp [runSplit, h]

/-- Prepending copies of the predecessor value preserves `NoIso`. -/
theorem noIso_replicate_front (p : Bool) (k : Nat) (l : List Bool)
    (h : NoIso p l) : NoIso p (List.replicate k p ++ l) := by
  induction k with
  | zero => simpa using h
  | succ k ih => simpa [List.replicate_succ] using NoIso.merge p _ ih

/-- A fresh run of length at least 2 can follow any predecessor value. -/
theorem noIso_fresh_run (p c : Bool) (k : Nat) (l : List Bool) (hk : 1 ≤ k)
    (h : NoIso c (List.replicate k c ++ l)) :
    NoIso p (List.replicate (k + 1) c ++ l) := by
  by_cases hcp : c = p
  · subst hcp
    simpa [List.replicate_succ] using NoIso.merge c _ h
  · rcases k with _ | k
    · omega
    · have h2 : NoIso c (c :: (List.replicate k c ++ l)) := by
        simpa [List.replicate_succ] using h
      have h3 := NoIso.fresh p c (List.replicate k c ++ l) hcp h2
      simpa [List.replicate_succ] using h3

/-- The run-flipping loop leaves no isolated value behind, reading the list
with its (possibly flipped) predecessor value. -/
theorem noIso_smoothRuns : ∀ (l : List Bool) (prev : Bool),
    NoIso prev (smoothRuns 2 prev l) := by
  suffices H : ∀ (N : Nat) (l : List Bool) (prev : Bool), l.length ≤ N →
      NoIso prev (smoothRuns 2 prev l) by
    intro l prev
    exact H l.length l prev le_rfl
  intro N
  induction N with
  | zero =>
      intro l prev hl
      have : l = [] := List.length_eq_zero.mp (Nat.le_zero.mp hl)
      subst this
      rw [smoothRuns]
      exact NoIso.nil prev
  | succ N ih =>
      intro l prev hl
      match l with
      | [] =>
          rw [smoothRuns]
          exact NoIso.nil prev
      | c :: cs =>
          rw [smoothRuns]
          rcases hrs : runSplit c cs with ⟨n, rest⟩
          dsimp only
          have hrest : rest.length ≤ cs.length := by
            have h0 := runSplit_length_le c cs
            rw [hrs] at h0
            exact h0
          have hrec : rest.length ≤ N := by
            simp only [List.length_cons] at hl
            omega
          by_cases hn : n + 1 < 2
          · rw [if_pos hn]
            exact noIso_replicate_front prev (n + 1) _ (ih rest prev hrec)
          · rw [if_neg hn]
            have h1 : 1 ≤ n := by omega
            exact noIso_fresh_run prev c n _ h1
              (noIso_replicate_front c n _ (ih rest c hrec))

/-- Reading a `NoIso` certificate as the no-isolated-run property of the
list extended with its leading frame. -/
theorem noIso_cons_noIsolated (x : Bool) (xs : List Bool) (h : NoIso x xs) :
    noIsolatedAfterHead (x :: xs) := by
  induction h with
  | nil p =>
      intro i hi hlen _
      simp only [List.length_cons, List.length_nil] at hlen
      omega
  | merge p l hp ih =>
      intro i hi hlen hne
      rcases i with _ | _ | j
      · omega
      · exfalso
        apply hne
        simp
      · have hlen' : (j + 1) + 1 ≤ (p :: l).length := by
          simp only [List.length_cons] at hlen ⊢
          omega
        have hne' : (p :: l).getD (j + 1) false ≠ (p :: l).getD (j + 1 - 1) false := by
          simpa using hne
        have hres := ih (j + 1) (by omega) hlen' hne'
        constructor
        · simp only [List.length_cons] at hres ⊢
          omega
        · simpa using hres.2
  | fresh p b l hbp hb ih =>
      intro i hi hlen hne
      rcases i with _ | _ | j
      · omega
      · refine ⟨?_, ?_⟩
        · simp only [List.length_cons]
          omega
        · simp
      · have hlen' : (j + 1) + 1 ≤ (b :: b :: l).length := by
          simp only [List.length_cons] at hlen ⊢
          omega
        have hne' : (b :: b :: l).getD (j + 1) false ≠
            (b :: b :: l).getD (j + 1 - 1) false := by
          simpa using hne
        have hres := ih (j + 1) (by omega) hlen' hne'
        constructor
        · simp only [List.length_cons] at hres ⊢
          omega
        · simpa using hres.2

/-- Lists of at most one frame have no non-leading run at all. -/
theorem noIsolated_short (l : List Bool) (h : l.length ≤ 1) :
    noIsolatedAfterHead l := by
  intro i hi hlen _
  omega

theorem getD_replicate_false (k i : Nat) :
    (List.replicate k false).getD i false = false := by
  induction k generalizing i with
  | zero => simp
  | succ k ih => cases i <;> simp [List.replicate_succ, ih]

/-- An all-false mask has a single run. -/
theorem noIsolated_replicate_false (k : Nat) :
    noIsolatedAfterHead (List.replicate k false) := by
  intro i hi hlen hne
  exact absurd (by rw [getD_replicate_false, getD_replicate_false]) hne

/-- For at least three frames, `_smooth` with `min_run = 2` leaves no
isolated non-leading value. -/
theorem smooth_no_isolated (frames : List Bool) (h3 : 3 ≤ frames.length) :
    noIsolatedAfterHead (smooth frames 2) := by
  unfold smooth
  rw [if_neg (by simp; omega)]
  match frames, h3 with
  | c :: cs, h3 =>
      dsimp only
      rcases hrs : runSplit c cs with ⟨n, rest⟩
      dsimp only
      have hiso : NoIso c (List.replicate n c ++ smoothRuns 2 c rest) :=
        noIso_replicate_front c n _ (noIso_smoothRuns rest c)
      have hcons := noIso_cons_noIsolated c _ hiso
      simpa [List.replicate_succ] using hcons

/-- `_smooth` with `min_run = 2` never outputs an isolated non-leading run
unless the mask has exactly two frames and is returned unchanged. -/
theorem smooth_no_isolated_of_length_ne_two (t : List Bool)
    (hne : (smooth t 2).length ≠ 2) : noIsolatedAfterHead (smooth t 2) := by
  by_cases h3 : t.length < 3
  · have heq : smooth t 2 = t := by
      unfold smooth
      rw [if_pos (by simp [h3])]
    rw [heq] at hne ⊢
    exact noIsolated_short t (by omega)
  · exact smooth_no_isolated t (by omega)

/-- Counterexample to C9 as stated: a 2-frame clip (fps 8000, one loud and
one silent window) yields the mask [talking, idle]; `_smooth` skips inputs
shorter than 3 frames, so the isolated idle value at the non-leading second
frame survives. -/
theorem lipsync_two_frame_isolated :
    analyze_lipsync_mask [1, 1, 0, 0] 8000 = [true, false] ∧
    ¬ noIsolatedAfterHead (analyze_lipsync_mask [1, 1, 0, 0] 8000) := by
  have h1 : analyze_lipsync_mask [1, 1, 0, 0] 8000 = [true, false] := by decide
  refine ⟨h1, ?_⟩
  rw [h1]
  intro h
  have h2 := h 1 (by omega) (by simp) (by simp)
  exact absurd h2.1 (by simp)

/-- Claim C9 as amended: for every input clip whose mask does not have
exactly 2 frames, the talking/idle mask produced by `analyze_lipsync`
contains no run of length 1 except possibly at the first frame; masks of
exactly 2 frames are returned unsmoothed because `_smooth` ignores inputs
shorter than 3 frames. -/
theorem lipsync_no_isolated (samples : List ℤ) (fps : Nat)
    (hlen : (analyze_lipsync_mask samples fps).length ≠ 2) :
    noIsolatedAfterHead (analyze_lipsync_mask samples fps) := by
  simp only [analyze_lipsync_mask] at hlen ⊢
  split_ifs at hlen ⊢ with h1 h2 h3
  · exact noIsolated_short [] (by simp)
  · exact noIsolated_short [] (by simp)
  · exact noIsolated_replicate_false _
  · exact smooth_no_isolated_of_length_ne_two _ hlen

/-- Witness for the amended C9: a silent 3-frame clip, whose mask is
all-idle. -/
theorem lipsync_no_isolated_witness :
    (analyze_lipsync_mask [0, 0, 0, 0, 0, 0] 8000).length ≠ 2 ∧
    noIsolatedAfterHead (analyze_lipsync_mask [0, 0, 0, 0, 0, 0] 8000) :=
  ⟨by decide, lipsync_no_isolated [0, 0, 0, 0, 0, 0] 8000 (by decide)⟩

/-! Claim C1 — `get_top_headlines` selection. -/

theorem length_filter_partition {α : Type} (p : α → Bool) (l : List α) :
    (l.filter p).length + (l.filter fun a => !(p a)).length = l.length := by
  induction l with
  | nil => simp
  | cons a t ih =>
      cases hp : p a <;> simp [List.filter_cons, hp] <;> omega

theorem topHeadlinesQuery_length (db : List ScoredHeadline) (cutoff : Int)
    (limit : Nat) (pred : ScoredHeadline → Bool) :
    (topHeadlinesQuery db cutoff limit pred).length =
      min limit (db.filter fun r => headlineEligible cutoff r && pred r).length := by
  unfold topHeadlinesQuery
  rw [List.length_take, (List.perm_insertionSort headlineOrder _).length_eq]

theorem topHeadlinesQuery_sorted (db : List ScoredHeadline) (cutoff : Int)
    (limit : Nat) (pred : ScoredHeadline → Bool) :
    List.Sorted headlineOrder (topHeadlinesQuery db cutoff limit pred) :=
  List.Pairwise.sublist (List.take_sublist _ _)
    (List.sorted_insertionSort headlineOrder _)

theorem topHeadlinesQuery_mem (db : List ScoredHeadline) (cutoff : Int)
    (limit : Nat) (pred : ScoredHeadline → Bool) (r : ScoredHeadline)
    (hr : r ∈ topHeadlinesQuery db cutoff limit pred) :
    r ∈ db ∧ headlineEligible cutoff r = true ∧ pred r = true := by
  unfold topHeadlinesQuery at hr
  have h1 := List.mem_of_mem_take hr
  have h2 := (List.perm_insertionSort headlineOrder _).mem_iff.mp h1
  have h3 := List.mem_filter.mp h2
  have h4 : headlineEligible cutoff r = true ∧ pred r = true := by
    simpa using h3.2
  exact ⟨h3.1, h4.1, h4.2⟩

/-- The backfill loop only appends to the already collected rows. -/
theorem backfillLoop_append (limit : Nat) :
    ∀ (pend : List ScoredHeadline) (seen : List String)
      (rows : List ScoredHeadline),
      ∃ extra, backfillLoop limit pend seen rows = rows ++ extra := by
  intro pend
  induction pend with
  | nil =>
      intro seen rows
      exact ⟨[], by simp [backfillLoop]⟩
  | cons r rest ih =>
      intro seen rows
      simp only [backfillLoop]
      by_cases hc : (!(seen.contains r.id) && decide (rows.length < limit)) = true
      · rw [if_pos hc]
        rcases ih (r.id :: seen) (rows ++ [r]) with ⟨extra, hex⟩
        exact ⟨[r] ++ extra, by rw [hex, List.append_assoc]⟩
      · rw [if_neg hc]
        exact ih seen rows

/-- Length of the backfill result: the collected rows plus the unseen part
of the pending rows, capped at the limit. -/
theorem backfillLoop_length (limit : Nat) :
    ∀ (pend : List ScoredHeadline) (seen : List String)
      (rows : List ScoredHeadline),
      (pend.map (·.id)).Nodup → rows.length ≤ limit →
      (backfillLoop limit pend seen rows).length =
        min limit
          (rows.length + (pend.filter fun r => !(seen.contains r.id)).length) := by
  intro pend
  induction pend with
  | nil =>
      intro seen rows _ hle
      simp only [backfillLoop, List.filter_nil, List.length_nil, Nat.add_zero]
      omega
  | cons r rest ih =>
      intro seen rows hnd hle
      have hcons := hnd
      simp only [List.map_cons, List.nodup_cons] at hcons
      cases hseen : seen.contains r.id with
      | true =>
          simp only [backfillLoop]
          rw [if_neg (by rw [hseen]; simp)]
          rw [ih seen rows hcons.2 hle]
          rw [List.filter_cons, if_neg (by rw [hseen]; simp)]
      | false =>
          by_cases hlt : rows.length < limit
          · simp only [backfillLoop]
            rw [if_pos (by rw [hseen]; simp [hlt])]
            rw [ih (r.id :: seen) (rows ++ [r]) hcons.2
              (by simp only [List.length_append, List.length_cons, List.length_nil]; omega)]
            have hfc : rest.filter (fun x => !((r.id :: seen).contains x.id)) =
                rest.filter fun x => !(seen.contains x.id) := by
              apply List.filter_congr
              intro x hx
              have hne : x.id ≠ r.id := fun heq =>
                hcons.1 (List.mem_map.mpr ⟨x, hx, heq⟩)
              simp [List.contains_cons, hne]
            rw [hfc, List.filter_cons, if_pos (by rw [hseen]; simp)]
            congr 1
            simp only [List.length_append, List.length_cons, List.length_nil]
            omega
          · simp only [backfillLoop]
            rw [if_neg (by simp [hlt])]
            rw [ih seen rows hcons.2 hle]
            rw [List.filter_cons]
            split_ifs <;> simp only [List.length_cons] <;> omega

/-- Rows whose id lies in a given id list are at most as many as the ids. -/
theorem filter_contains_length_le (pend : List ScoredHeadline)
    (ids : List String) (hnd : (pend.map (·.id)).Nodup) :
    (pend.filter fun r => ids.contains r.id).length ≤ ids.length := by
  have hsub : List.Sublist (pend.filter fun r => ids.contains r.id) pend :=
    List.filter_sublist _
  have hndF : ((pend.filter fun r => ids.contains r.id).map (·.id)).Nodup :=
    List.Nodup.sublist (List.Sublist.map _ hsub) hnd
  have hsubset : ((pend.filter fun r => ids.contains r.id).map (·.id)) ⊆ ids := by
    intro x hx
    rcases List.mem_map.mp hx with ⟨r, hr, hid⟩
    have hc := (List.mem_filter.mp hr).2
    rw [← hid]
    simpa using hc
  calc (pend.filter fun r => ids.contains r.id).length
      = ((pend.filter fun r => ids.contains r.id).map (·.id)).length := by
        rw [List.length_map]
    _ ≤ ids.length := (List.subperm_of_subset hndF hsubset).length_le

/-- Claim C1: `get_top_headlines(limit, window, exclude_ids)` returns as
many rows as there are eligible ones, up to the limit; no returned row has
an excluded id unless fewer than `limit` eligible rows lie outside the
exclusion list (backfill); and the prefix of non-excluded rows is ordered
by (score desc, fetched_at desc). -/
theorem get_top_headlines_spec (db : List ScoredHeadline) (cutoff : Int)
    (limit : Nat) (exclude_ids : List String)
    (hnd : (db.map (·.id)).Nodup) (hlim : 1 ≤ limit) :
    (get_top_headlines db cutoff limit exclude_ids).length =
      min limit (db.filter fun r => headlineEligible cutoff r).length ∧
    (limit ≤ (db.filter fun r =>
        headlineEligible cutoff r && !(exclude_ids.contains r.id)).length →
      ∀ r ∈ get_top_headlines db cutoff limit exclude_ids,
        exclude_ids.contains r.id = false) ∧
    List.Sorted headlineOrder
      ((get_top_headlines db cutoff limit exclude_ids).take
        (min limit (db.filter fun r =>
          headlineEligible cutoff r && !(exclude_ids.contains r.id)).length)) ∧
    ∀ r ∈ (get_top_headlines db cutoff limit exclude_ids).take
        (min limit (db.filter fun r =>
          headlineEligible cutoff r && !(exclude_ids.contains r.id)).length),
      exclude_ids.contains r.id = false := by
  have hTT : (db.filter fun r => headlineEligible cutoff r && true) =
      db.filter fun r => headlineEligible cutoff r :=
    List.filter_congr fun x _ => by simp
  by_cases hE : exclude_ids.isEmpty = true
  · have hnil : exclude_ids = [] := List.isEmpty_iff.mp hE
    subst hnil
    have hR : get_top_headlines db cutoff limit [] =
        topHeadlinesQuery db cutoff limit fun _ => true := by
      simp [get_top_headlines]
    refine ⟨?_, ?_, ?_, ?_⟩
    · rw [hR, topHeadlinesQuery_length, hTT]
    · intro _ r _
      simp
    · rw [hR]
      exact List.Pairwise.sublist (List.take_sublist _ _)
        (topHeadlinesQuery_sorted db cutoff limit _)
    · intro r _
      simp
  · have hq1len := topHeadlinesQuery_length db cutoff limit
      fun r => !(exclude_ids.contains r.id)
    by_cases hlt : (topHeadlinesQuery db cutoff limit
        fun r => !(exclude_ids.contains r.id)).length < limit
    · -- backfill branch
      have hR : get_top_headlines db cutoff limit exclude_ids =
          backfillLoop limit (topHeadlinesQuery db cutoff limit fun _ => true)
            ((topHeadlinesQuery db cutoff limit
              fun r => !(exclude_ids.contains r.id)).map (·.id))
            (topHeadlinesQuery db cutoff limit
              fun r => !(exclude_ids.contains r.id)) := by
        simp only [get_top_headlines]
        rw [if_neg hE, if_pos hlt]
      have hAlt : (db.filter fun r =>
          headlineEligible cutoff r && !(exclude_ids.contains r.id)).length < limit := by
        omega
      have hq1eq : (topHeadlinesQuery db cutoff limit
          fun r => !(exclude_ids.contains r.id)) =
          List.insertionSort headlineOrder (db.filter fun r =>
            headlineEligible cutoff r && !(exclude_ids.contains r.id)) := by
        unfold topHeadlinesQuery
        exact List.take_of_length_le
          (by rw [(List.perm_insertionSort headlineOrder _).length_eq]
              simp only []
              omega)
      have hq1perm : List.Perm (topHeadlinesQuery db cutoff limit
          fun r => !(exclude_ids.contains r.id)) (db.filter fun r =>
            headlineEligible cutoff r && !(exclude_ids.contains r.id)) := by
        rw [hq1eq]
        exact List.perm_insertionSort headlineOrder _
      have hndfil : ∀ p : ScoredHeadline → Bool,
          ((db.filter p).map (·.id)).Nodup := fun p =>
        List.Nodup.sublist (List.Sublist.map _ (List.filter_sublist _)) hnd
      have hndpend : ((topHeadlinesQuery db cutoff limit
          fun _ => true).map (·.id)).Nodup := by
        unfold topHeadlinesQuery
        apply List.Nodup.sublist (List.Sublist.map _ (List.take_sublist _ _))
        exact (((List.perm_insertionSort headlineOrder _).map (·.id)).symm).nodup
          (hndfil _)
      have hq1le : (topHeadlinesQuery db cutoff limit
          fun r => !(exclude_ids.contains r.id)).length ≤ limit := by
        omega
      have hlen := backfillLoop_length limit
        (topHeadlinesQuery db cutoff limit fun _ => true)
        ((topHeadlinesQuery db cutoff limit
          fun r => !(exclude_ids.contains r.id)).map (·.id))
        (topHeadlinesQuery db cutoff limit
          fun r => !(exclude_ids.contains r.id)) hndpend hq1le
      have hpendlen : (topHeadlinesQuery db cutoff limit fun _ => true).length =
          min limit (db.filter fun r => headlineEligible cutoff r).length := by
        rw [topHeadlinesQuery_length, hTT]
      refine ⟨?_, ?_, ?_, ?_⟩
      · -- length
        rw [hR, hlen]
        by_cases hM : (db.filter fun r => headlineEligible cutoff r).length ≤ limit
        · -- the unexcluded query returns every eligible row
          have hpendeq : (topHeadlinesQuery db cutoff limit fun _ => true) =
              List.insertionSort headlineOrder
                (db.filter fun r => headlineEligible cutoff r) := by
            unfold topHeadlinesQuery
            rw [hTT]
            exact List.take_of_length_le
              (by rw [(List.perm_insertionSort headlineOrder _).length_eq]; omega)
          have hpendperm : List.Perm
              (topHeadlinesQuery db cutoff limit fun _ => true)
              (db.filter fun r => headlineEligible cutoff r) := by
            rw [hpendeq]
            exact List.perm_insertionSort headlineOrder _
          have hPE : ∀ x ∈ db.filter fun r => headlineEligible cutoff r,
              (!(((topHeadlinesQuery db cutoff limit
                fun r => !(exclude_ids.contains r.id)).map (·.id)).contains x.id)) =
              exclude_ids.contains x.id := by
            intro x hx
            have hxdb := (List.mem_filter.mp hx).1
            have hxelig := (List.mem_filter.mp hx).2
            cases hco : exclude_ids.contains x.id with
            | false =>
                have hxA : x ∈ db.filter fun r =>
                    headlineEligible cutoff r && !(exclude_ids.contains r.id) :=
                  List.mem_filter.mpr ⟨hxdb, by rw [Bool.and_eq_true, hco]; exact ⟨hxelig, rfl⟩⟩
                have hxq1 := (hq1perm.mem_iff).mpr hxA
                have hmem : x.id ∈ (topHeadlinesQuery db cutoff limit
                    fun r => !(exclude_ids.contains r.id)).map (·.id) :=
                  List.mem_map.mpr ⟨x, hxq1, rfl⟩
                have hctrue : ((topHeadlinesQuery db cutoff limit
                    fun r => !(exclude_ids.contains r.id)).map (·.id)).contains x.id = true := by
                  simpa using hmem
                rw [hctrue]
                rfl
            | true =>
                have hnot : x.id ∉ (topHeadlinesQuery db cutoff limit
                    fun r => !(exclude_ids.contains r.id)).map (·.id) := by
                  intro hmem
                  rcases List.mem_map.mp hmem with ⟨a, haq1, haid⟩
                  have haA := (hq1perm.mem_iff).mp haq1
                  have haDb := (List.mem_filter.mp haA).1
                  have hax : a = x :=
                    List.inj_on_of_nodup_map hnd haDb hxdb haid
                  have hpred := (List.mem_filter.mp haA).2
                  rw [hax] at hpred
                  rw [Bool.and_eq_true] at hpred
                  rw [hco] at hpred
                  exact absurd hpred.2 (by simp)
                have hcfalse : ((topHeadlinesQuery db cutoff limit
                    fun r => !(exclude_ids.contains r.id)).map (·.id)).contains x.id = false := by
                  simpa using hnot
                rw [hcfalse]
                rfl
          have hfilPE : ((topHeadlinesQuery db cutoff limit fun _ => true).filter
              fun r => !(((topHeadlinesQuery db cutoff limit
                fun r => !(exclude_ids.contains r.id)).map (·.id)).contains r.id)).length =
              ((db.filter fun r => headlineEligible cutoff r).filter
                fun r => exclude_ids.contains r.id).length := by
            rw [← List.countP_eq_length_filter, hpendperm.countP_eq,
              List.countP_eq_length_filter]
            congr 1
            exact List.filter_congr hPE
          have hAeq : ((db.filter fun r => headlineEligible cutoff r).filter
              fun r => !(exclude_ids.contains r.id)) =
              db.filter fun r =>
                headlineEligible cutoff r && !(exclude_ids.contains r.id) := by
            rw [List.filter_filter]
            exact List.filter_congr fun x _ => Bool.and_comm _ _
          have hpart := length_filter_partition
            (fun r => exclude_ids.contains r.id)
            (db.filter fun r => headlineEligible cutoff r)
          simp only [] at hpart
          rw [hAeq] at hpart
          rw [hfilPE, hq1perm.length_eq]
          omega
        · -- more eligible rows than the limit: the result is full
          have hpendN : (topHeadlinesQuery db cutoff limit fun _ => true).length =
              limit := by
            rw [hpendlen]
            omega
          have hpart := length_filter_partition
            (fun r => (((topHeadlinesQuery db cutoff limit
              fun r => !(exclude_ids.contains r.id)).map (·.id)).contains r.id))
            (topHeadlinesQuery db cutoff limit fun _ => true)
          have hcontLe := filter_contains_length_le
            (topHeadlinesQuery db cutoff limit fun _ => true)
            ((topHeadlinesQuery db cutoff limit
              fun r => !(exclude_ids.contains r.id)).map (·.id)) hndpend
          simp only [] at hpart
          rw [List.length_map] at hcontLe
          rw [hpendN] at hpart
          omega
      · -- exclusion: vacuous in the backfill branch
        intro hge
        exfalso
        omega
      · -- sorted prefix
        rw [hR, show min limit (db.filter fun r =>
            headlineEligible cutoff r && !(exclude_ids.contains r.id)).length =
            (topHeadlinesQuery db cutoff limit
              fun r => !(exclude_ids.contains r.id)).length from hq1len.symm]
        rcases backfillLoop_append limit
          (topHeadlinesQuery db cutoff limit fun _ => true)
          ((topHeadlinesQuery db cutoff limit
            fun r => !(exclude_ids.contains r.id)).map (·.id))
          (topHeadlinesQuery db cutoff limit
            fun r => !(exclude_ids.contains r.id)) with ⟨extra, hex⟩
        rw [hex, List.take_left]
        exact topHeadlinesQuery_sorted db cutoff limit _
      · -- non-excluded prefix
        intro r hr
        rw [hR, show min limit (db.filter fun r =>
            headlineEligible cutoff r && !(exclude_ids.contains r.id)).length =
            (topHeadlinesQuery db cutoff limit
              fun r => !(exclude_ids.contains r.id)).length from hq1len.symm] at hr
        rcases backfillLoop_append limit
          (topHeadlinesQuery db cutoff limit fun _ => true)
          ((topHeadlinesQuery db cutoff limit
            fun r => !(exclude_ids.contains r.id)).map (·.id))
          (topHeadlinesQuery db cutoff limit
            fun r => !(exclude_ids.contains r.id)) with ⟨extra, hex⟩
        rw [hex, List.take_left] at hr
        have := (topHeadlinesQuery_mem db cutoff limit _ r hr).2.2
        simpa using this
    · -- the excluded query already filled the limit
      have hR : get_top_headlines db cutoff limit exclude_ids =
          topHeadlinesQuery db cutoff limit
            fun r => !(exclude_ids.contains r.id) := by
        simp only [get_top_headlines]
        rw [if_neg hE, if_neg hlt]
      have hMge : (db.filter fun r =>
          headlineEligible cutoff r && !(exclude_ids.contains r.id)).length ≤
          (db.filter fun r => headlineEligible cutoff r).length := by
        rw [← List.countP_eq_length_filter, ← List.countP_eq_length_filter]
        exact List.countP_mono_left fun x _ hx => by
          rw [Bool.and_eq_true] at hx
          exact hx.1
      refine ⟨?_, ?_, ?_, ?_⟩
      · rw [hR, hq1len]
        omega
      · intro _ r hr
        rw [hR] at hr
        have := (topHeadlinesQuery_mem db cutoff limit _ r hr).2.2
        simpa using this
      · rw [hR]
        exact List.Pairwise.sublist (List.take_sublist _ _)
          (topHeadlinesQuery_sorted db cutoff limit _)
      · intro r hr
        rw [hR] at hr
        have hr' := List.mem_of_mem_take hr
        have := (topHeadlinesQuery_mem db cutoff limit _ r hr').2.2
        simpa using this

/-- Concrete instance of the C1 theorem: three-row table, limit 2,
excluding "h1"; the backfill path appends "h1" after the non-excluded
"h2". -/
theorem get_top_headlines_spec_witness :
    (c1db.map (·.id)).Nodup ∧ 1 ≤ 2 ∧
    ((get_top_headlines c1db 0 2 ["h1"]).length =
      min 2 (c1db.filter fun r => headlineEligible 0 r).length ∧
    (2 ≤ (c1db.filter fun r =>
        headlineEligible 0 r && !((["h1"] : List String).contains r.id)).length →
      ∀ r ∈ get_top_headlines c1db 0 2 ["h1"],
        (["h1"] : List String).contains r.id = false) ∧
    List.Sorted headlineOrder
      ((get_top_headlines c1db 0 2 ["h1"]).take
        (min 2 (c1db.filter fun r =>
          headlineEligible 0 r && !((["h1"] : List String).contains r.id)).length)) ∧
    ∀ r ∈ (get_top_headlines c1db 0 2 ["h1"]).take
        (min 2 (c1db.filter fun r =>
          headlineEligible 0 r && !((["h1"] : List String).contains r.id)).length),
      (["h1"] : List String).contains r.id = false) :=
  ⟨by decide, by decide,
    get_top_headlines_spec c1db 0 2 ["h1"] (by decide) (by decide)⟩

/-! Claim C8 — EDL timing. -/

/-- `random.randint(lo, hi)` stays in `[lo, hi]`. -/
theorem randint_bounds (lo hi : Int) (v : Nat) (h : lo ≤ hi) :
    lo ≤ randint lo hi v ∧ randint lo hi v ≤ hi := by
  unfold randint
  have hpos : (0 : Int) < hi - lo + 1 := by omega
  have h1 : 0 ≤ (v : Int) % (hi - lo + 1) := Int.emod_nonneg _ (by omega)
  have h2 : (v : Int) % (hi - lo + 1) < hi - lo + 1 := Int.emod_lt_of_pos _ hpos
  omega

theorem segmentsDuration_append (a b : List EDLSegment) :
    segmentsDuration (a ++ b) = segmentsDuration a + segmentsDuration b := by
  simp [segmentsDuration]

theorem spokenDuration_append (a b : List EDLSegment) :
    spokenDuration (a ++ b) = spokenDuration a + spokenDuration b := by
  simp [spokenDuration, spokenSegments, segmentsDuration, List.filter_append]

/-- Total duration splits into spoken and inserted parts. -/
theorem segmentsDuration_partition (l : List EDLSegment) :
    segmentsDuration l = spokenDuration l + insertedDuration l := by
  induction l with
  | nil =>
      simp [segmentsDuration, spokenDuration, insertedDuration, insertedSegments,
        spokenSegments]
  | cons s t ih =>
      rcases hs : s.speaker with _ | sp <;>
        simp [segmentsDuration, spokenDuration, insertedDuration,
          insertedSegments, spokenSegments, List.filter_cons, hs] at ih ⊢ <;>
        omega

/-- Segments that all lack a speaker contribute nothing to the spoken sum. -/
theorem spokenDuration_eq_zero (l : List EDLSegment)
    (h : ∀ s ∈ l, s.speaker = none) : spokenDuration l = 0 := by
  induction l with
  | nil => simp [spokenDuration, spokenSegments, segmentsDuration]
  | cons s t ih =>
      have hs := h s (by simp)
      simp only [spokenDuration, spokenSegments, segmentsDuration,
        List.filter_cons, hs, Option.isSome_none, cond_false] at ih ⊢
      exact ih fun x hx => h x (by simp [hx])

/-- A closeup shot type is never the wide shot type. -/
theorem closeupShotType_ne_wide (ch : String) (chars : List String) :
    closeupShotType ch chars ≠ "wide" := by
  unfold closeupShotType
  split_ifs
  · decide
  · rcases chars.indexOf? ch with _ | idx
    · simp only
      decide
    · simp only
      split_ifs <;> decide

/-- The wide shot a `selectShot` call may insert: speaker-less, no
listener, and between `WIDE_SHOT_MIN_MS` and `WIDE_SHOT_MAX_MS` long. -/
theorem selectShot_wideSegs (bg : String) (chars : List String)
    (line : DialogLine) (prev : Option DialogLine) (lsw : Nat) (seg_id : Nat)
    (r : Rng) :
    ∀ s ∈ (selectShot bg chars line prev lsw seg_id r).wideSegs,
      s.speaker = none ∧ s.listener = none ∧
      WIDE_SHOT_MIN_MS ≤ s.duration_ms ∧ s.duration_ms ≤ WIDE_SHOT_MAX_MS := by
  unfold selectShot
  rcases line.camera_hint with _ | hint
  · simp only
    split_ifs
    · simp
    · intro s hs
      simp only [List.mem_singleton] at hs
      subst hs
      refine ⟨rfl, rfl, ?_⟩
      exact randint_bounds WIDE_SHOT_MIN_MS WIDE_SHOT_MAX_MS _ (by decide)
    · simp
  · simp

/-- The reaction segment, when inserted, is speaker-less, carries a
listener, is not a wide, and lasts between `REACTION_MIN_MS` and
`REACTION_MAX_MS`. -/
theorem reactionSegs_props (bg : String) (chars : List String)
    (line : DialogLine) (seg_id : Nat) (r : Rng) :
    ∀ s ∈ (reactionSegs bg chars line seg_id r).1,
      s.speaker = none ∧ s.listener.isSome = true ∧ s.shot_type ≠ "wide" ∧
      REACTION_MIN_MS ≤ s.duration_ms ∧ s.duration_ms ≤ REACTION_MAX_MS := by
  unfold reactionSegs
  rcases hd : shouldInsertReaction line chars r with ⟨doReact, r1⟩
  cases doReact
  · simp
  · simp only [if_true]
    rcases hp : pickListener line.character chars r1 with ⟨lo, r2⟩
    rcases lo with _ | listener
    · simp
    · intro s hs
      simp only [List.mem_singleton] at hs
      subst hs
      refine ⟨rfl, rfl, ?_, ?_⟩
      · exact closeupShotType_ne_wide listener chars
      · exact randint_bounds REACTION_MIN_MS REACTION_MAX_MS _ (by decide)

/-- Processing one line appends its dialog segment plus possibly an interval
wide and a reaction, nothing else. -/
theorem processLine_decomp (bg : String) (chars : List String) (ctx : LineCtx)
    (line : DialogLine) :
    ∃ Δ : List EDLSegment,
      (processLine bg chars ctx line).st.segments = ctx.st.segments ++ Δ ∧
      spokenDuration Δ = (if 0 < line.duration_ms then line.duration_ms else 0) ∧
      ∀ s ∈ Δ,
        (s.shot_type = "wide" → s.speaker = none →
          WIDE_SHOT_MIN_MS ≤ s.duration_ms ∧ s.duration_ms ≤ WIDE_SHOT_MAX_MS) ∧
        (s.listener.isSome = true →
          REACTION_MIN_MS ≤ s.duration_ms ∧ s.duration_ms ≤ REACTION_MAX_MS) := by
  by_cases hdur : line.duration_ms ≤ 0
  · refine ⟨[], ?_, ?_, by simp⟩
    · simp [processLine, hdur]
    · rw [if_neg (by omega)]
      simp [spokenDuration, spokenSegments, segmentsDuration]
  · simp only [processLine, if_neg hdur]
    rw [List.append_assoc, List.append_assoc]
    refine ⟨_, rfl, ?_, ?_⟩
    · rw [spokenDuration_append, spokenDuration_append]
      rw [spokenDuration_eq_zero _ fun s hs =>
        (selectShot_wideSegs bg chars line ctx.prev_line ctx.lines_since_wide
          ctx.st.seg_id ctx.st.rng s hs).1]
      rw [spokenDuration_eq_zero _ fun s hs =>
        (reactionSegs_props bg chars line _ _ s hs).1]
      rw [if_pos (by omega : 0 < line.duration_ms)]
      simp [spokenDuration, spokenSegments, segmentsDuration]
    · intro s hs
      rcases List.mem_append.mp hs with hs | hs
      · have hw := selectShot_wideSegs bg chars line ctx.prev_line
          ctx.lines_since_wide ctx.st.seg_id ctx.st.rng s hs
        refine ⟨fun _ _ => ⟨hw.2.2.1, hw.2.2.2⟩, fun hl => ?_⟩
        rw [hw.2.1] at hl
        exact absurd hl (by simp)
      · rcases List.mem_append.mp hs with hs | hs
        · simp only [List.mem_singleton] at hs
          subst hs
          constructor
          · intro _ hsp
            exact absurd hsp (by simp)
          · intro hl
            exact absurd hl (by simp)
        · have hr := reactionSegs_props bg chars line _ _ s hs
          exact ⟨fun hwide _ => absurd hwide hr.2.2.1,
            fun _ => ⟨hr.2.2.2.1, hr.2.2.2.2⟩⟩

/-- Folding `processLine` over a scene's lines appends each line's block. -/
theorem processLines_decomp (bg : String) (chars : List String) :
    ∀ (lines : List DialogLine) (ctx : LineCtx),
      ∃ Δ : List EDLSegment,
        (lines.foldl (processLine bg chars) ctx).st.segments =
          ctx.st.segments ++ Δ ∧
        spokenDuration Δ =
          (lines.map fun l => if 0 < l.duration_ms then l.duration_ms else 0).sum ∧
        ∀ s ∈ Δ,
          (s.shot_type = "wide" → s.speaker = none →
            WIDE_SHOT_MIN_MS ≤ s.duration_ms ∧ s.duration_ms ≤ WIDE_SHOT_MAX_MS) ∧
          (s.listener.isSome = true →
            REACTION_MIN_MS ≤ s.duration_ms ∧ s.duration_ms ≤ REACTION_MAX_MS) := by
  intro lines
  induction lines with
  | nil =>
      intro ctx
      exact ⟨[], by simp, by simp [spokenDuration, spokenSegments, segmentsDuration],
        by simp⟩
  | cons l rest ih =>
      intro ctx
      rcases processLine_decomp bg chars ctx l with ⟨Δ1, h1, h2, h3⟩
      rcases ih (processLine bg chars ctx l) with ⟨Δ2, g1, g2, g3⟩
      refine ⟨Δ1 ++ Δ2, ?_, ?_, ?_⟩
      · rw [List.foldl_cons, g1, h1, List.append_assoc]
      · rw [spokenDuration_append, h2, g2]
        simp
      · intro s hs
        rcases List.mem_append.mp hs with hs | hs
        · exact h3 s hs
        · exact g3 s hs

/-- The scene-opening wide: speaker-less, listener-less, exactly
`WIDE_SHOT_DURATION_MS` long. -/
theorem sceneOpenState_decomp (chars : List String) (acc : DirState × Bool)
    (scene : VScene) :
    ∃ W : EDLSegment,
      (sceneOpenState chars acc scene).segments = acc.1.segments ++ [W] ∧
      W.speaker = none ∧ W.listener = none ∧ W.shot_type = "wide" ∧
      W.duration_ms = WIDE_SHOT_DURATION_MS := by
  simp only [sceneOpenState]
  exact ⟨_, rfl, rfl, rfl, rfl, rfl⟩

/-- Processing one scene appends its opening wide and its line blocks. -/
theorem processScene_decomp (chars : List String) (acc : DirState × Bool)
    (scene : VScene) :
    ∃ Δ : List EDLSegment,
      (processScene chars acc scene).1.segments = acc.1.segments ++ Δ ∧
      spokenDuration Δ =
        (scene.lines.map fun l => if 0 < l.duration_ms then l.duration_ms else 0).sum ∧
      ∀ s ∈ Δ,
        (s.shot_type = "wide" → s.speaker = none →
          WIDE_SHOT_MIN_MS ≤ s.duration_ms ∧ s.duration_ms ≤ WIDE_SHOT_MAX_MS) ∧
        (s.listener.isSome = true →
          REACTION_MIN_MS ≤ s.duration_ms ∧ s.duration_ms ≤ REACTION_MAX_MS) := by
  rcases sceneOpenState_decomp chars acc scene with ⟨W, hW, hWsp, hWl, hWsh, hWd⟩
  rcases processLines_decomp scene.background chars scene.lines
      { st := sceneOpenState chars acc scene, lines_since_wide := 0,
        prev_line := none } with ⟨Δ2, g1, g2, g3⟩
  refine ⟨[W] ++ Δ2, ?_, ?_, ?_⟩
  · simp only [processScene]
    rw [g1]
    simp only [hW]
    rw [List.append_assoc]
  · rw [spokenDuration_append, g2]
    have hz : spokenDuration [W] = 0 :=
      spokenDuration_eq_zero [W] fun s hs => by
        simp only [List.mem_singleton] at hs
        rw [hs]
        exact hWsp
    rw [hz]
    omega
  · intro s hs
    rcases List.mem_append.mp hs with hs | hs
    · simp only [List.mem_singleton] at hs
      subst hs
      constructor
      · intro _ _
        rw [hWd]
        constructor <;> decide
      · intro hl
        rw [hWl] at hl
        exact absurd hl (by simp)
    · exact g3 s hs

/-- Folding `processScene` over the scenes appends each scene's block. -/
theorem processScenes_decomp (chars : List String) :
    ∀ (scenes : List VScene) (acc : DirState × Bool),
      ∃ Δ : List EDLSegment,
        (scenes.foldl (processScene chars) acc).1.segments =
          acc.1.segments ++ Δ ∧
        spokenDuration Δ =
          (scenes.map fun sc =>
            (sc.lines.map fun l => if 0 < l.duration_ms then l.duration_ms else 0).sum).sum ∧
        ∀ s ∈ Δ,
          (s.shot_type = "wide" → s.speaker = none →
            WIDE_SHOT_MIN_MS ≤ s.duration_ms ∧ s.duration_ms ≤ WIDE_SHOT_MAX_MS) ∧
          (s.listener.isSome = true →
            REACTION_MIN_MS ≤ s.duration_ms ∧ s.duration_ms ≤ REACTION_MAX_MS) := by
  intro scenes
  induction scenes with
  | nil =>
      intro acc
      exact ⟨[], by simp, by simp [spokenDuration, spokenSegments, segmentsDuration],
        by simp⟩
  | cons sc rest ih =>
      intro acc
      rcases processScene_decomp chars acc sc with ⟨Δ1, h1, h2, h3⟩
      rcases ih (processScene chars acc sc) with ⟨Δ2, g1, g2, g3⟩
      refine ⟨Δ1 ++ Δ2, ?_, ?_, ?_⟩
      · rw [List.foldl_cons, g1, h1, List.append_assoc]
      · rw [spokenDuration_append, h2, g2]
        simp
      · intro s hs
        rcases List.mem_append.mp hs with hs | hs
        · exact h3 s hs
        · exact g3 s hs

/-- Claim C8: for every script whose dialog lines have positive durations,
the EDL's total duration equals the sum of the line durations plus the
durations of the inserted (speaker-less) wide and reaction segments; every
speaker-less wide segment lasts between 2000 and 4000 ms and every reaction
segment between 1500 and 3000 ms, for any random stream. -/
theorem generate_edl_timing (g : Nat → Nat) (script : VScript) :
    ((∀ sc ∈ script.scenes, ∀ l ∈ sc.lines, 0 < l.duration_ms) →
      (generate_edl g script).total_duration_ms =
        scriptLineDuration script +
          segmentsDuration (insertedSegments (generate_edl g script).segments)) ∧
    (∀ s ∈ (generate_edl g script).segments,
      s.shot_type = "wide" → s.speaker = none →
      WIDE_SHOT_MIN_MS ≤ s.duration_ms ∧ s.duration_ms ≤ WIDE_SHOT_MAX_MS) ∧
    (∀ s ∈ (generate_edl g script).segments, s.listener.isSome = true →
      REACTION_MIN_MS ≤ s.duration_ms ∧ s.duration_ms ≤ REACTION_MAX_MS) := by
  rcases processScenes_decomp script.characters script.scenes
      ({ segments := [], seg_id := 0, rng := { g := g, idx := 0 } }, true)
    with ⟨Δ, h1, h2, h3⟩
  have hseg : (generate_edl g script).segments = Δ := by
    simp only [generate_edl]
    simpa using h1
  refine ⟨?_, ?_, ?_⟩
  · intro hpos
    have htot : (generate_edl g script).total_duration_ms = segmentsDuration Δ := by
      rw [EDL.total_duration_ms, hseg]
      rfl
    have hspoken : spokenDuration Δ = scriptLineDuration script := by
      rw [h2]
      unfold scriptLineDuration
      congr 1
      apply List.map_congr_left
      intro sc hsc
      congr 1
      apply List.map_congr_left
      intro l hl
      exact if_pos (hpos sc hsc l hl)
    rw [htot, segmentsDuration_partition, hspoken, hseg]
    rfl
  · intro s hs
    exact (h3 s (hseg ▸ hs)).1
  · intro s hs
    exact (h3 s (hseg ▸ hs)).2

/-- Witness for C8: a two-line scene with positive durations. -/
theorem generate_edl_timing_witness :
    (generate_edl (fun n => n)
        { title := "t"
          characters := ["alex", "maya"]
          scenes :=
            [{ scene_id := "s1"
               background := "studio"
               lines :=
                 [{ character := "alex"
                    text := "hi"
                    audio_path := none
                    duration_ms := 3500
                    emotion := "excited"
                    camera_hint := none },
                  { character := "maya"
                    text := "yo"
                    audio_path := none
                    duration_ms := 1000
                    emotion := "neutral"
                    camera_hint := none }] }] }).total_duration_ms =
      scriptLineDuration
        { title := "t"
          characters := ["alex", "maya"]
          scenes :=
            [{ scene_id := "s1"
               background := "studio"
               lines :=
                 [{ character := "alex"
                    text := "hi"
                    audio_path := none
                    duration_ms := 3500
                    emotion := "excited"
                    camera_hint := none },
                  { character := "maya"
                    text := "yo"
                    audio_path := none
                    duration_ms := 1000
                    emotion := "neutral"
                    camera_hint := none }] }] } +
        segmentsDuration (insertedSegments
          (generate_edl (fun n => n)
            { title := "t"
              characters := ["alex", "maya"]
              scenes :=
                [{ scene_id := "s1"
                   background := "studio"
                   lines :=
                     [{ character := "alex"
                        text := "hi"
                        audio_path := none
                        duration_ms := 3500
                        emotion := "excited"
                        camera_hint := none },
                      { character := "maya"
                        text := "yo"
                        audio_path := none
                        duration_ms := 1000
                        emotion := "neutral"
                        camera_hint := none }] }] }).segments) := by
  have h := generate_edl_timing (fun n => n)
    { title := "t"
      characters := ["alex", "maya"]
      scenes :=
        [{ scene_id := "s1"
           background := "studio"
           lines :=
             [{ character := "alex"
                text := "hi"
                audio_path := none
                duration_ms := 3500
                emotion := "excited"
                camera_hint := none },
              { character := "maya"
                text := "yo"
                audio_path := none
                duration_ms := 1000
                emotion := "neutral"
                camera_hint := none }] }] }
  exact h.1 (by decide)

/-! Claim C7 — dedup idempotence of the news cache. -/

/-- One fetch step only appends rows. -/
theorem fetchFeedStep_subset (h : String → String) (src : NewsSource)
    (now : String) (c : List CacheNewsRow) (e : FeedEntry) (r : CacheNewsRow)
    (hr : r ∈ c) : r ∈ fetchFeedStep h src now c e := by
  simp only [fetchFeedStep, insertOrIgnore]
  split_ifs <;> simp [hr]

/-- A whole fold of fetch steps only appends rows. -/
theorem fetchFeedFold_subset (h : String → String) (src : NewsSource)
    (now : String) (es : List FeedEntry) (c : List CacheNewsRow)
    (r : CacheNewsRow) (hr : r ∈ c) :
    r ∈ es.foldl (fetchFeedStep h src now) c := by
  induction es generalizing c with
  | nil => simpa using hr
  | cons e rest ih =>
      exact ih _ (fetchFeedStep_subset h src now c e r hr)

/-- After processing a feed entry with a non-empty sanitized title, a row
with its id is present. -/
theorem fetchFeedStep_mem (h : String → String) (src : NewsSource)
    (now : String) (c : List CacheNewsRow) (e : FeedEntry)
    (hgood : (sanitize e.title 200).isEmpty = false) :
    ∃ r ∈ fetchFeedStep h src now c e, r.id = feedEntryId h src e := by
  simp only [fetchFeedStep]
  rw [if_neg (by simp [hgood])]
  by_cases hmem : (c.any fun r =>
      r.id = src.id ++ "_" ++ title_hash h (sanitize e.title 200)) = true
  · rw [if_pos hmem]
    rcases List.any_eq_true.mp hmem with ⟨r, hr, hid⟩
    exact ⟨r, hr, by simpa [feedEntryId] using hid⟩
  · rw [if_neg hmem]
    simp only [insertOrIgnore]
    rw [if_neg (by simpa using hmem)]
    refine ⟨{ id := src.id ++ "_" ++ title_hash h (sanitize e.title 200),
              source_id := src.id, title := sanitize e.title 200,
              description := sanitize e.summary 300, url := e.link,
              published_at := e.published.getD now, fetched_at := now,
              title_hash := title_hash h (sanitize e.title 200),
              category := src.category }, by simp, by simp [feedEntryId]⟩

/-- After one full poll, every entry among the first 20 with a non-empty
sanitized title has a row with its id in the cache. -/
theorem fetchFeedFold_mem (h : String → String) (src : NewsSource)
    (now : String) (es : List FeedEntry) (c : List CacheNewsRow) (e : FeedEntry)
    (hgood : (sanitize e.title 200).isEmpty = false) :
    e ∈ es → ∃ r ∈ es.foldl (fetchFeedStep h src now) c,
      r.id = feedEntryId h src e := by
  induction es generalizing c with
  | nil =>
      intro he
      cases he
  | cons e' rest ih =>
      intro he
      rcases List.mem_cons.mp he with he | he
      · subst he
        rcases fetchFeedStep_mem h src now c e hgood with ⟨r, hr, hid⟩
        exact ⟨r, fetchFeedFold_subset h src now rest _ r hr, hid⟩
      · exact ih _ he

/-- A step never adds a second row for an id that is already present. -/
theorem fetchFeedStep_countP (h : String → String) (src : NewsSource)
    (now : String) (c : List CacheNewsRow) (e : FeedEntry) (nid : String)
    (hpres : ∃ r ∈ c, r.id = nid) :
    (fetchFeedStep h src now c e).countP (fun r => r.id = nid) =
      c.countP (fun r => r.id = nid) := by
  simp only [fetchFeedStep]
  split_ifs with h1 h2
  · rfl
  · rfl
  · simp only [insertOrIgnore]
    rw [if_neg (by simpa using h2)]
    rw [List.countP_append]
    have hne : src.id ++ "_" ++ title_hash h (sanitize e.title 200) ≠ nid := by
      intro heq
      rcases hpres with ⟨r, hr, hid⟩
      have : c.any (fun r => r.id = src.id ++ "_" ++ title_hash h (sanitize e.title 200)) = true :=
        List.any_eq_true.mpr ⟨r, hr, by simp [hid, heq]⟩
      exact h2 this
    simp [hne]

/-- A fold of steps never adds a second row for a present id. -/
theorem fetchFeedFold_countP (h : String → String) (src : NewsSource)
    (now : String) (es : List FeedEntry) (c : List CacheNewsRow) (nid : String)
    (hpres : ∃ r ∈ c, r.id = nid) :
    (es.foldl (fetchFeedStep h src now) c).countP (fun r => r.id = nid) =
      c.countP (fun r => r.id = nid) := by
  induction es generalizing c with
  | nil => rfl
  | cons e rest ih =>
      rcases hpres with ⟨r, hr, hid⟩
      have hpres' : ∃ r ∈ fetchFeedStep h src now c e, r.id = nid :=
        ⟨r, fetchFeedStep_subset h src now c e r hr, hid⟩
      calc (rest.foldl (fetchFeedStep h src now) (fetchFeedStep h src now c e)).countP
            (fun r => r.id = nid)
          = (fetchFeedStep h src now c e).countP (fun r => r.id = nid) := ih _ hpres'
        _ = c.countP (fun r => r.id = nid) :=
            fetchFeedStep_countP h src now c e nid ⟨r, hr, hid⟩

/-- Starting from a cache without the id, a step leaves count 1 when the
entry produces that id, count 0 otherwise. -/
theorem fetchFeedStep_countP_absent (h : String → String) (src : NewsSource)
    (now : String) (c : List CacheNewsRow) (e : FeedEntry) (nid : String)
    (habs : c.countP (fun r => r.id = nid) = 0) :
    (fetchFeedStep h src now c e).countP (fun r => r.id = nid) =
      if (sanitize e.title 200).isEmpty = false ∧ feedEntryId h src e = nid
      then 1 else 0 := by
  by_cases hgood : (sanitize e.title 200).isEmpty = false
  · by_cases hid : feedEntryId h src e = nid
    · rw [if_pos ⟨hgood, hid⟩]
      simp only [fetchFeedStep]
      rw [if_neg (by simp [hgood])]
      have hany : (c.any fun r =>
          r.id = src.id ++ "_" ++ title_hash h (sanitize e.title 200)) = false := by
        rw [List.any_eq_false]
        intro r hr
        have := List.countP_eq_zero.mp habs r hr
        simp only [decide_eq_true_eq] at this
        simp only [decide_eq_true_eq]
        intro heq
        exact this (by rw [heq]; exact hid)
      rw [if_neg (by simp [hany])]
      simp only [insertOrIgnore]
      rw [if_neg (by simp [hany])]
      rw [List.countP_append, habs]
      have : (src.id ++ "_" ++ title_hash h (sanitize e.title 200)) = nid := hid
      simp [this]
    · rw [if_neg (by simp [hid])]
      simp only [fetchFeedStep]
      rw [if_neg (by simp [hgood])]
      split_ifs with h2
      · exact habs
      · simp only [insertOrIgnore]
        rw [if_neg (by simpa using h2)]
        rw [List.countP_append, habs]
        have hne : (src.id ++ "_" ++ title_hash h (sanitize e.title 200)) ≠ nid := hid
        simp [hne]
  · rw [if_neg (by simp [hgood])]
    simp only [fetchFeedStep]
    rw [if_pos (by simpa using hgood)]
    exact habs

/-- Starting from a cache without the id, one full fold leaves exactly one
row with the id of any contributing entry. -/
theorem fetchFeedFold_countP_absent (h : String → String) (src : NewsSource)
    (now : String) (es : List FeedEntry) (c : List CacheNewsRow) (nid : String)
    (habs : c.countP (fun r => r.id = nid) = 0)
    (hex : ∃ e ∈ es, (sanitize e.title 200).isEmpty = false ∧
      feedEntryId h src e = nid) :
    (es.foldl (fetchFeedStep h src now) c).countP (fun r => r.id = nid) = 1 := by
  induction es generalizing c with
  | nil => rcases hex with ⟨e, he, _⟩; cases he
  | cons e' rest ih =>
      by_cases hprod : (sanitize e'.title 200).isEmpty = false ∧
          feedEntryId h src e' = nid
      · have h1 : (fetchFeedStep h src now c e').countP (fun r => r.id = nid) = 1 := by
          rw [fetchFeedStep_countP_absent h src now c e' nid habs, if_pos hprod]
        have hpres : ∃ r ∈ fetchFeedStep h src now c e', r.id = nid := by
          have := List.countP_pos (p := fun r => decide (r.id = nid))
            (l := fetchFeedStep h src now c e')
          rcases this.mp (by omega) with ⟨r, hr, hid⟩
          exact ⟨r, hr, by simpa using hid⟩
        calc (rest.foldl (fetchFeedStep h src now)
              (fetchFeedStep h src now c e')).countP (fun r => r.id = nid)
            = (fetchFeedStep h src now c e').countP (fun r => r.id = nid) :=
              fetchFeedFold_countP h src now rest _ nid hpres
          _ = 1 := h1
      · have h0 : (fetchFeedStep h src now c e').countP (fun r => r.id = nid) = 0 := by
          rw [fetchFeedStep_countP_absent h src now c e' nid habs, if_neg hprod]
        have hex' : ∃ e ∈ rest, (sanitize e.title 200).isEmpty = false ∧
            feedEntryId h src e = nid := by
          rcases hex with ⟨e, he, hp⟩
          rcases List.mem_cons.mp he with he | he
          · exact absurd (he ▸ hp) hprod
          · exact ⟨e, he, hp⟩
        exact ih _ h0 hex'

/-- Re-polling a feed over an already-updated cache changes nothing. -/
theorem fetchFeedFold_idem (h : String → String) (src : NewsSource)
    (now : String) (es : List FeedEntry) (d : List CacheNewsRow)
    (hall : ∀ e ∈ es, (sanitize e.title 200).isEmpty = false →
      ∃ r ∈ d, r.id = feedEntryId h src e) :
    es.foldl (fetchFeedStep h src now) d = d := by
  induction es with
  | nil => rfl
  | cons e rest ih =>
      have hstep : fetchFeedStep h src now d e = d := by
        simp only [fetchFeedStep]
        by_cases hgood : (sanitize e.title 200).isEmpty = false
        · rw [if_neg (by simp [hgood])]
          rcases hall e (by simp) hgood with ⟨r, hr, hid⟩
          rw [if_pos (List.any_eq_true.mpr ⟨r, hr, by simp [hid, feedEntryId]⟩)]
        · rw [if_pos (by simpa using hgood)]
      rw [List.foldl_cons, hstep]
      exact ih fun e' he' hg => hall e' (by simp [he']) hg

/-- Claim C7: for every source and feed entry, polling the feed K ≥ 1 times
leaves exactly one `cache_news` row whose id is
`{source_id}_{first 16 hex chars of sha256(lowercased trimmed title)}`
(computed from the stored, sanitized title), and a repeated poll over an
already-updated cache is a no-op: inserting an already cached (source,
normalized title) pair changes nothing. -/
theorem news_dedup_idempotent (h : String → String) (src : NewsSource)
    (now : String) (entries : List FeedEntry) (cache : List CacheNewsRow)
    (e : FeedEntry) (K : Nat) :
    (fetchFeedCache h src now entries (fetchFeedCache h src now entries cache) =
      fetchFeedCache h src now entries cache) ∧
    (e ∈ entries.take 20 →
      (sanitize e.title 200).isEmpty = false →
      cache.countP (fun r => r.id = feedEntryId h src e) = 0 →
      1 ≤ K →
      ((fetchFeedCache h src now entries)^[K] cache).countP
        (fun r => r.id = feedEntryId h src e) = 1) := by
  constructor
  · unfold fetchFeedCache
    apply fetchFeedFold_idem
    intro e' he' hg
    exact fetchFeedFold_mem h src now (entries.take 20) cache e' hg he'
  · intro he hgood habs hK
    have hone : (fetchFeedCache h src now entries cache).countP
        (fun r => r.id = feedEntryId h src e) = 1 := by
      unfold fetchFeedCache
      exact fetchFeedFold_countP_absent h src now (entries.take 20) cache _
        habs ⟨e, he, hgood, rfl⟩
    have hkeep : ∀ (k : Nat) (c' : List CacheNewsRow),
        c'.countP (fun r => r.id = feedEntryId h src e) = 1 →
        ((fetchFeedCache h src now entries)^[k] c').countP
          (fun r => r.id = feedEntryId h src e) = 1 := by
      intro k
      induction k with
      | zero =>
          intro c' h1
          simpa using h1
      | succ k ih =>
          intro c' h1
          rw [Function.iterate_succ_apply]
          apply ih
          have hpres : ∃ r ∈ c', r.id = feedEntryId h src e := by
            have hp := List.countP_pos
              (p := fun r => decide (r.id = feedEntryId h src e)) (l := c')
            rcases hp.mp (by omega) with ⟨r, hr, hid⟩
            exact ⟨r, hr, by simpa using hid⟩
          unfold fetchFeedCache
          rw [fetchFeedFold_countP h src now (entries.take 20) c' _ hpres]
          exact h1
    rcases K with _ | k
    · omega
    · rw [Function.iterate_succ_apply]
      exact hkeep k _ hone

/-- Witness for C7: one source, one entry, two polls, exactly one row. -/
theorem news_dedup_idempotent_witness :
    ((fetchFeedCache (fun s => s)
        { id := "src", label := "S", url := "u", category := "g", weight := 1,
          enabled := true } "t"
        [{ title := "Hello World", summary := "d", link := "l", published := none }])^[2]
        []).countP
      (fun r => r.id = feedEntryId (fun s => s)
        { id := "src", label := "S", url := "u", category := "g", weight := 1,
          enabled := true }
        { title := "Hello World", summary := "d", link := "l", published := none }) = 1 := by
  have h := news_dedup_idempotent (fun s => s)
    { id := "src", label := "S", url := "u", category := "g", weight := 1,
      enabled := true } "t"
    [{ title := "Hello World", summary := "d", link := "l", published := none }]
    [] { title := "Hello World", summary := "d", link := "l", published := none } 2
  exact h.2 (by decide) (by decide) (by decide) (by decide)

end Hermes
